import Mathlib

/-!
Shallow embedding of the progress-bar tracker and renderer of
`progressbar.go` (package progressbar).

Modelling conventions:
* Go `int`/`int64` are modelled as `Int` (overflow is out of scope of the
  claims, which use small values).
* Go `float64` quantities (byte accumulator, rates, seconds) are modelled as
  `ℚ` with exact arithmetic; `time.Time`/`time.Since` are modelled by passing
  an explicit rational `now` (in seconds) to each operation, with
  `time.Since(t) = now - t`.
* Go's float-to-int conversion truncates toward zero: `ratTrunc`.
* Go's `%` / `/` on integers truncate toward zero: `Int.tmod` / `Int.tdiv`.
* Writes to the output sink never fail in the model (write failures are an
  external concern); the bytes written by an operation are returned as a
  `String` so that theorems can talk about the emitted output.
* External collaborators (terminal width query, rune display width,
  color-code translation, `time.Duration.String`, and the spinner glyph
  table of `spinners.go`, which is not part of the sources here) are
  bundled as an `Env` of uninterpreted functions; theorems quantify over
  them, adding only hypotheses that are true of the real collaborator
  (e.g. `time.Duration.String` never returns an empty string).
-/

namespace Progressbar

/-- Truncation toward zero of a rational, the semantics of Go's
float64-to-int conversion (`int(x)`). `q.num.tdiv q.den` truncates the
reduced fraction toward zero. -/
def ratTrunc (q : ℚ) : Int := Int.tdiv q.num (q.den : Int)

/-- Round to the nearest integer, ties to even: the rounding used by Go's
`fmt` verbs `%.0f` (and, one decimal up, `%.1f`). -/
def roundHalfEven (q : ℚ) : Int :=
  let n := Rat.floor q
  let f := q - (n : ℚ)
  if (1 : ℚ)/2 < f then n + 1
  else if f < (1 : ℚ)/2 then n
  else if n % 2 = 0 then n else n + 1

/-- Go `strings.Repeat s n` (for a non-negative count). -/
def strRepeat (s : String) (n : ℕ) : String := String.join (List.replicate n s)

/-- Left-pad with spaces to a minimum width, as Go's width-n `fmt` verbs do
for ASCII output. -/
def padLeft (s : String) (n : ℕ) : String := strRepeat " " (n - s.length) ++ s

/-- Go `fmt.Sprintf("%.0f", q)`. -/
def fmtF0 (q : ℚ) : String := toString (roundHalfEven q)

/-- Go `fmt.Sprintf("%.1f", q)` for non-negative `q`: one decimal digit,
rounding ties to even. -/
def fmtF1 (q : ℚ) : String :=
  let m := roundHalfEven (10 * q)
  toString (Int.tdiv m 10) ++ "." ++ toString (Int.tmod m 10)

/-- Go `fmt.Sprintf("%2.0f", q)`: like `%.0f` but space-padded to width 2. -/
def fmtF2w0 (q : ℚ) : String := padLeft (fmtF0 q) 2

/-- Go `fmt.Sprintf("%4d", n)`. -/
def fmtInt4 (n : Int) : String := padLeft (toString n) 4

/-- progressbar.go lines 679-685: `average` sums a slice and divides by its
length. (For the empty slice Go produces NaN where `ℚ` yields `0`; every
caller in the source guards the empty case, so the difference is unobservable.) -/
def average (xs : List ℚ) : ℚ := (xs.foldr (· + ·) 0) / (xs.length : ℚ)

/-- Fuel-driven integer logarithm: `intLogAux b fuel n` is `⌊log_b n⌋` for
`2 ≤ b` and `1 ≤ n ≤ fuel` (structural recursion so that the kernel can
evaluate it). -/
def intLogAux (b : ℕ) : ℕ → ℕ → ℕ
  | 0, _ => 0
  | fuel + 1, n => if n < b then 0 else intLogAux b fuel (n / b) + 1

/-- Integer logarithm `⌊log_b n⌋` (for `2 ≤ b`, `1 ≤ n`), the exact value of
Go's `math.Floor(logn(float64(n), float64(b)))`. -/
def intLog (b n : ℕ) : ℕ := intLogAux b n n

/-- progressbar.go lines 658-673: `humanizeBytes` renders a byte quantity
with binary (1024) multiples.  Returns the numeric part and the unit-suffix
part, exactly as the Go function returns two strings.
Floats are modelled as exact rationals, so `math.Floor(logn(s,1024))` is the
integer logarithm `intLog 1024 ⌊s⌋` (the two agree for every `s ≥ 10`), and
`math.Floor(s/1024^e*10+0.5)/10` is computed exactly.  Go would panic with an
index-out-of-range for `s ≥ 1024^7`; the model returns an empty suffix there. -/
def humanizeBytes (s : ℚ) : String × String :=
  let sizes := [" B", " KB", " MB", " GB", " TB", " PB", " EB"]
  if s < 10 then (fmtF2w0 s, " B")
  else
    let e := intLog 1024 (Rat.floor s).toNat
    let suffix := sizes.getD e ""
    let val : ℚ := ((Rat.floor (s / ((1024 : ℚ) ^ e) * 10 + 1/2) : Int) : ℚ) / 10
    if val < 10 then (fmtF1 val, suffix) else (fmtF0 val, suffix)

/-- progressbar.go lines 107-114: the bar theme. -/
structure Theme where
  saucer : String
  altSaucerHead : String
  saucerHead : String
  saucerPadding : String
  barStart : String
  barEnd : String
deriving Repr, DecidableEq

/-- progressbar.go lines 56-104: the immutable configuration.  The output
`writer` is not a field (writes are modelled as returned strings) and the
completion callback is modelled by the flag `hasOnCompletion` (the render
theorems count its invocations).  `throttleNs` is `throttleDuration` in
nanoseconds. -/
structure Config where
  max : Int
  maxHumanized : String
  maxHumanizedSuffix : String
  width : Int
  theme : Theme
  renderWithBlankState : Bool
  description : String
  ignoreLength : Bool
  throttleNs : Int
  spinnerType : Int
  elapsedTime : Bool
  predictTime : Bool
  showBytes : Bool
  showIterationsCount : Bool
  showDescriptionAtLineEnd : Bool
  hasOnCompletion : Bool
  fullWidth : Bool
  useANSICodes : Bool
  clearOnFinish : Bool
  colorCodes : Bool
deriving Repr, DecidableEq

/-- progressbar.go lines 34-54: the mutable tracker state.  Timestamps are
rational seconds. -/
structure State where
  currentNum : Int
  currentPercent : Int
  lastPercent : Int
  currentSaucerSize : Int
  isAltSaucerHead : Bool
  startTime : ℚ
  lastShown : ℚ
  counterTime : ℚ
  counterNumSinceLast : Int
  counterLastTenRates : List ℚ
  maxLineWidth : Int
  currentBytes : ℚ
  finished : Bool
  exit : Bool
  rendered : String
deriving Repr, DecidableEq

/-- The two error values `Add64` can build with `errors.New`:
`maxNotPositive` is the message "max must be greater than 0" (the spec's
`InvalidConfiguration`) and `exceedsMax` is "current number exceeds max"
(the spec's `OutOfRange`). -/
inductive AddError where
  | maxNotPositive
  | exceedsMax
deriving Repr, DecidableEq

/-- External collaborators, out of scope per the spec, modelled as
uninterpreted functions.
* `durStr d` models `(time.Duration(d) * time.Second).String()` for `d`
  whole seconds (the real function never returns `""`; `Duration(0).String()`
  is `"0s"`).
* `termWidth` models the result of the `termWidth()` query.
* `spinnerFrame t k` models `spinners[t][...]`, the glyph of spinner style
  `t` after `k` tenths of a second (`spinners.go` is not among the sources,
  so the glyph table is left abstract).
* `strWidth` models `runewidth.StringWidth`.
* `colorize` models `colorstring.Color`, and `stripAnsi` the
  `ansiRegex.ReplaceAllString(·, "")` step of `getStringWidth`. -/
structure Env where
  durStr : Int → String
  termWidth : Int
  spinnerFrame : Int → Int → String
  strWidth : String → Int
  colorize : String → String
  stripAnsi : String → String

/-- progressbar.go line 206: the default theme. -/
def defaultTheme : Theme :=
  { saucer := "█", altSaucerHead := "", saucerHead := "", saucerPadding := " ",
    barStart := "|", barEnd := "|" }

/-- progressbar.go lines 209-221: the configuration built by `NewOptions64`
before the options run. -/
def defaultConfig (max : Int) : Config :=
  { max := max, maxHumanized := "", maxHumanizedSuffix := "", width := 40,
    theme := defaultTheme, renderWithBlankState := false, description := "",
    ignoreLength := false, throttleNs := 0, spinnerType := 9,
    elapsedTime := true, predictTime := true, showBytes := false,
    showIterationsCount := false, showDescriptionAtLineEnd := false,
    hasOnCompletion := false, fullWidth := false, useANSICodes := false,
    clearOnFinish := false, colorCodes := false }

/-- The functional options of progressbar.go lines 119-204 (the
writer-setting option is omitted because the writer is not modelled). -/
inductive POption where
  | setWidth (w : Int)
  | spinnerType (t : Int)
  | setTheme (t : Theme)
  | setDescription (d : String)
  | showBytes (b : Bool)
  | throttle (ns : Int)
  | showCount
  | onCompletion
  | fullWidth
  | setRenderBlankState (b : Bool)
  | enableColorCodes (b : Bool)
deriving Repr, DecidableEq

/-- Effect of one functional option on the configuration. -/
def applyOption (o : POption) (c : Config) : Config :=
  match o with
  | .setWidth w => { c with width := w }
  | .spinnerType t => { c with spinnerType := t }
  | .setTheme t => { c with theme := t }
  | .setDescription d => { c with description := d }
  | .showBytes b => { c with showBytes := b }
  | .throttle ns => { c with throttleNs := ns }
  | .showCount => { c with showIterationsCount := true }
  | .onCompletion => { c with hasOnCompletion := true }
  | .fullWidth => { c with fullWidth := true }
  | .setRenderBlankState b => { c with renderWithBlankState := b }
  | .enableColorCodes b => { c with colorCodes := b }

/-- progressbar.go lines 231-238: after the options ran, `max == -1` turns on
unknown-length mode (`ignoreLength`), replaces `max` by the configured width
and disables time prediction; then the humanized maximum is precomputed. -/
def finalizeConfig (c : Config) : Config :=
  let c :=
    if c.max = -1 then
      { c with ignoreLength := true, max := c.width, predictTime := false }
    else c
  let hb := humanizeBytes (c.max : ℚ)
  { c with maxHumanized := hb.1, maxHumanizedSuffix := hb.2 }

/-- Apply the options in order, as the `for _, o := range options` loop does. -/
def applyOptions : List POption → Config → Config
  | [], c => c
  | o :: rest, c => applyOptions rest (applyOption o c)

/-- progressbar.go lines 208-245: `NewOptions64`.  Returns `none` where Go
panics (spinner type out of the range 0-75).  The `RenderBlank` call for
`renderWithBlankState` only emits output and is not needed by any claim. -/
def NewOptions64 (max : Int) (opts : List POption) : Option Config :=
  let c := applyOptions opts (defaultConfig max)
  if c.spinnerType < 0 ∨ 75 < c.spinnerType then none
  else some (finalizeConfig c)

/-- progressbar.go lines 247-254: `getBasicState`, all timestamps `now`. -/
def getBasicState (now : ℚ) : State :=
  { currentNum := 0, currentPercent := 0, lastPercent := 0,
    currentSaucerSize := 0, isAltSaucerHead := false, startTime := now,
    lastShown := now, counterTime := now, counterNumSinceLast := 0,
    counterLastTenRates := [], maxLineWidth := 0, currentBytes := 0,
    finished := false, exit := false, rendered := "" }

/-- progressbar.go lines 409-422: `clearProgressBar` returns the bytes it
writes: nothing while no line was ever rendered (`maxLineWidth == 0`); the
erase-line ANSI sequence plus carriage return in ANSI mode; otherwise a
carriage return, `maxLineWidth` spaces, and another carriage return. -/
def clearProgressBar (c : Config) (s : State) : String :=
  if s.maxLineWidth = 0 then ""
  else if c.useANSICodes then "\x1b[2K\r"
  else "\r" ++ strRepeat " " s.maxLineWidth.toNat ++ "\r"

/-- progressbar.go lines 702-723: `getStringWidth`.  (As in the source, the
`colorize` boolean parameter is accepted but never read: both transforms are
gated on `c.colorCodes`.) -/
def getStringWidth (env : Env) (c : Config) (str : String) (_colorize : Bool) : Int :=
  let str := if c.colorCodes then env.colorize str else str
  let cleanString := str.replace "\r" ""
  let cleanString := if c.colorCodes then env.stripAnsi cleanString else cleanString
  env.strWidth cleanString

/-- progressbar.go lines 503-514: the `switch` computing the bracketed time
strings.  `predictTime` sets the remaining-time string and falls through to
also set the elapsed string; `elapsedTime` alone sets only the elapsed
string.  `time.Duration(x) * time.Second` truncates the float `x` to whole
seconds, and a negative remaining time is clamped to 0 before formatting.
(When `averageRate` is zero Go computes `1/0 = +Inf` and the conversion to
a duration is unspecified; in `ℚ` the same expression is 0, so the model
formats a zero duration there — no claim depends on that corner.) -/
def bracketsOf (env : Env) (c : Config) (s : State) (now : ℚ) (averageRate : ℚ) :
    String × String :=
  if c.predictTime then
    let rb := ratTrunc ((1 / averageRate) * ((c.max : ℚ) - (s.currentNum : ℚ)))
    let rb := if rb < 0 then 0 else rb
    (env.durStr (ratTrunc (now - s.startTime)), env.durStr rb)
  else if c.elapsedTime then
    (env.durStr (ratTrunc (now - s.startTime)), "")
  else ("", "")

/-- progressbar.go lines 618-639: when a remaining-time string exists, the
bracketed `" [elapsed:remaining]"` segment is appended to the bar body
exactly when the current percentage differs from 100. -/
def timeSegment (percent : Int) (leftBrac rightBrac : String) : String :=
  if percent = 100 then "" else " [" ++ leftBrac ++ ":" ++ rightBrac ++ "]"

/-- progressbar.go lines 439-656: `renderProgressBar`.  Returns the new state
(the source mutates `currentSaucerSize`, `isAltSaucerHead` and `rendered`
through the `*state` argument), the written line, and its display width
(the source returns the width and the write error, which the model never
produces).  Time-dependent strings go through `env`. -/
def renderProgressBar (env : Env) (c : Config) (s : State) (now : ℚ) :
    State × String × Int :=
  let averageRate :=
    if s.counterLastTenRates.length = 0 ∨ s.finished then
      if 0 < now - s.startTime then s.currentBytes / (now - s.startTime) else 0
    else average s.counterLastTenRates
  let sb := ""
  let sb :=
    if c.showIterationsCount then
      let sb := if sb.length = 0 then sb ++ "(" else sb ++ ", "
      if c.ignoreLength = false then
        if c.showBytes then
          let hb := humanizeBytes s.currentBytes
          if hb.2 = c.maxHumanizedSuffix then
            sb ++ hb.1 ++ "/" ++ c.maxHumanized ++ c.maxHumanizedSuffix
          else
            sb ++ hb.1 ++ hb.2 ++ "/" ++ c.maxHumanized ++ c.maxHumanizedSuffix
        else sb ++ fmtF0 s.currentBytes ++ "/" ++ toString c.max
      else
        if c.showBytes then
          let hb := humanizeBytes s.currentBytes
          sb ++ hb.1 ++ hb.2
        else sb ++ fmtF0 s.currentBytes ++ "/" ++ "-"
    else sb
  let sb :=
    -- the Go condition also excludes an infinite rate (`math.IsInf`); rates
    -- are finite in exact arithmetic, so that conjunct is vacuous here
    if c.showBytes = true ∧ 0 < averageRate then
      let sb := if sb.length = 0 then sb ++ "(" else sb ++ ", "
      let hb := humanizeBytes averageRate
      sb ++ hb.1 ++ hb.2 ++ "/s"
    else sb
  let sb := if 0 < sb.length then sb ++ ")" else sb
  let brackets := bracketsOf env c s now averageRate
  let leftBrac := brackets.1
  let rightBrac := brackets.2
  let cwidth :=
    if c.fullWidth = true ∧ c.ignoreLength = false then
      let amend : Int :=
        if leftBrac ≠ "" ∧ rightBrac ≠ "" then 4
        else if leftBrac ≠ "" ∧ rightBrac = "" then 4
        else if leftBrac = "" ∧ rightBrac ≠ "" then 3
        else 1
      let amend := if c.showDescriptionAtLineEnd then amend + 1 else amend
      env.termWidth - getStringWidth env c c.description true - 10 - amend -
        (sb.utf8ByteSize : Int) - (leftBrac.utf8ByteSize : Int) -
        (rightBrac.utf8ByteSize : Int)
    else c.width
  let size1 :=
    if c.fullWidth = true ∧ c.ignoreLength = false then
      ratTrunc ((s.currentPercent : ℚ) / 100 * (cwidth : ℚ))
    else s.currentSaucerSize
  let saucer :=
    if 0 < size1 then
      if c.ignoreLength then strRepeat c.theme.saucerPadding (size1 - 1).toNat
      else strRepeat c.theme.saucer (size1 - 1).toNat
    else ""
  let saucerHead :=
    if 0 < size1 then
      if c.theme.altSaucerHead ≠ "" ∧ s.isAltSaucerHead then c.theme.altSaucerHead
      else if c.theme.saucerHead = "" ∨ size1 = cwidth then c.theme.saucer
      else c.theme.saucerHead
    else ""
  let alt1 :=
    if 0 < size1 then
      if c.theme.altSaucerHead ≠ "" ∧ s.isAltSaucerHead then false
      else if c.theme.saucerHead = "" ∨ size1 = cwidth then s.isAltSaucerHead
      else true
    else s.isAltSaucerHead
  let repeatAmount := cwidth - size1
  let repeatAmount := if repeatAmount < 0 then 0 else repeatAmount
  let str :=
    if c.ignoreLength then
      let spinner :=
        env.spinnerFrame c.spinnerType
          (Int.tdiv (ratTrunc ((now - s.startTime) * 1000)) 100)
      if c.elapsedTime then
        if c.showDescriptionAtLineEnd then
          "\r" ++ spinner ++ " " ++ sb ++ " [" ++ leftBrac ++ "] " ++
            c.description ++ " "
        else
          "\r" ++ spinner ++ " " ++ c.description ++ " " ++ sb ++ " [" ++
            leftBrac ++ "] "
      else
        if c.showDescriptionAtLineEnd then
          "\r" ++ spinner ++ " " ++ sb ++ " " ++ c.description ++ " "
        else
          "\r" ++ spinner ++ " " ++ c.description ++ " " ++ sb ++ " "
    else
      let body :=
        fmtInt4 s.currentPercent ++ "% " ++ c.theme.barStart ++ saucer ++
          saucerHead ++ strRepeat c.theme.saucerPadding repeatAmount.toNat ++
          c.theme.barEnd ++ " " ++ sb
      if rightBrac = "" then
        if c.showDescriptionAtLineEnd then
          "\r" ++ body ++ " " ++ c.description ++ " "
        else "\r" ++ c.description ++ body ++ " "
      else
        let core := body ++ timeSegment s.currentPercent leftBrac rightBrac
        if c.showDescriptionAtLineEnd then "\r" ++ core ++ " " ++ c.description
        else "\r" ++ c.description ++ core
  let str := if c.colorCodes then env.colorize str else str
  ({ s with currentSaucerSize := size1, isAltSaucerHead := alt1, rendered := str },
    str, getStringWidth env c str false)

/-- Result of `render`: the new state, how many times the completion
callback was invoked during the call, and the bytes written. -/
structure RenderRes where
  st : State
  fired : ℕ
  out : String
deriving Repr, DecidableEq

/-- progressbar.go lines 355-404: `render`.  Skips when throttled (unless the
count reached the maximum); outside ANSI mode first clears the previous
line; performs the one-way finished transition, drawing the final line
unless `clearOnFinish` and invoking the completion callback; once finished,
draws nothing further (except the extra erase in ANSI + clear-on-finish
mode); otherwise draws the line and updates `maxLineWidth` and
`lastShown`. -/
def render (env : Env) (c : Config) (s : State) (now : ℚ) : RenderRes :=
  if ratTrunc ((now - s.lastShown) * 1000000000) < c.throttleNs ∧
      s.currentNum < c.max then
    { st := s, fired := 0, out := "" }
  else
    let clearOut := if c.useANSICodes = false then clearProgressBar c s else ""
    if s.finished = false ∧ c.max ≤ s.currentNum then
      let s1 : State := { s with finished := true }
      let s2 := if c.clearOnFinish = false then (renderProgressBar env c s1 now).1 else s1
      let out2 :=
        if c.clearOnFinish = false then
          clearOut ++ (renderProgressBar env c s1 now).2.1
        else clearOut
      let fired := if c.hasOnCompletion then 1 else 0
      let out3 :=
        if c.useANSICodes = true ∧ c.clearOnFinish = true then
          out2 ++ clearProgressBar c s2
        else out2
      { st := s2, fired := fired, out := out3 }
    else if s.finished then
      let out3 :=
        if c.useANSICodes = true ∧ c.clearOnFinish = true then
          clearOut ++ clearProgressBar c s
        else clearOut
      { st := s, fired := 0, out := out3 }
    else
      let r := renderProgressBar env c s now
      let w := r.2.2
      let s2 : State :=
        { r.1 with
          maxLineWidth := if r.1.maxLineWidth < w then w else r.1.maxLineWidth,
          lastShown := now }
      { st := s2, fired := 0, out := clearOut ++ r.2.1 }

/-- Result of `Add64`: the new state, the returned error (if any), the
number of completion-callback invocations, and the bytes written. -/
structure AddResult where
  st : State
  err : Option AddError
  fired : ℕ
  out : String
deriving Repr, DecidableEq

/-- progressbar.go lines 305-311: the counter update of `Add64` — increment
only while the count is strictly below the maximum, wrapping with Go's `%`
in unknown-length mode — followed by the unconditional byte and
rate-window-counter accumulation of lines 313-316. -/
def applyDelta (c : Config) (s : State) (num : Int) : State :=
  let s :=
    if s.currentNum < c.max then
      if c.ignoreLength then
        { s with currentNum := Int.tmod (s.currentNum + num) c.max }
      else { s with currentNum := s.currentNum + num }
    else s
  { s with currentBytes := s.currentBytes + (num : ℚ),
           counterNumSinceLast := s.counterNumSinceLast + num }

/-- progressbar.go lines 317-324: when more than half a second elapsed since
the window start, push the window rate onto `counterLastTenRates`, dropping
the oldest entry when the list exceeds ten, and reset the window. -/
def updateWindow (s : State) (now : ℚ) : State :=
  if (1 : ℚ)/2 < now - s.counterTime then
    let rates := s.counterLastTenRates ++
      [(s.counterNumSinceLast : ℚ) / (now - s.counterTime)]
    let rates := if 10 < rates.length then rates.tail else rates
    { s with counterLastTenRates := rates, counterTime := now,
             counterNumSinceLast := 0 }
  else s

/-- progressbar.go lines 326-328: recompute the fill size and the integer
percentage from `currentNum/max` (float division and float-to-int
truncation, modelled exactly over `ℚ`). -/
def updatePercent (c : Config) (s : State) : State :=
  { s with
    currentSaucerSize :=
      ratTrunc ((s.currentNum : ℚ) / (c.max : ℚ) * (c.width : ℚ)),
    currentPercent := ratTrunc ((s.currentNum : ℚ) / (c.max : ℚ) * 100) }

/-- progressbar.go lines 293-342: `Add64`.  A halted (`exit`) tracker is a
no-op; `max == 0` returns the "max must be greater than 0" error; otherwise
the state is updated, `updateBar` is decided from the percentage change
before `lastPercent` is overwritten, a count strictly above the maximum
returns the "current number exceeds max" error, and the bar is re-rendered
when the percentage changed (and is positive) or iteration-count display is
enabled. -/
def Add64 (env : Env) (c : Config) (s : State) (num : Int) (now : ℚ) : AddResult :=
  if s.exit then { st := s, err := none, fired := 0, out := "" }
  else if c.max = 0 then
    { st := s, err := some .maxNotPositive, fired := 0, out := "" }
  else
    let s2 := updatePercent c (updateWindow (applyDelta c s num) now)
    let updateBar := s2.currentPercent ≠ s2.lastPercent ∧ 0 < s2.currentPercent
    let s3 : State := { s2 with lastPercent := s2.currentPercent }
    if c.max < s3.currentNum then
      { st := s3, err := some .exceedsMax, fired := 0, out := "" }
    else if updateBar ∨ c.showIterationsCount = true then
      let r := render env c s3 now
      { st := r.st, err := none, fired := r.fired, out := r.out }
    else { st := s3, err := none, fired := 0, out := "" }

/-- Repeated `Add64` calls: each list entry is a delta and the time at which
the call is made.  Returns the final state and the total number of
completion-callback invocations (callers in the wild routinely discard the
returned errors, as the demonstration programs do). -/
def runAdds (env : Env) (c : Config) : List (Int × ℚ) → State → State × ℕ
  | [], s => (s, 0)
  | a :: rest, s =>
    let r := Add64 env c s a.1 a.2
    let t := runAdds env c rest r.st
    (t.1, r.fired + t.2)

/-- The tracker state just before `Add64` decides on errors and redraws:
`applyDelta`, then `updateWindow`, then `updatePercent`, then the
`lastPercent := currentPercent` overwrite of progressbar.go line 331. -/
def preRenderState (c : Config) (s : State) (num : Int) (now : ℚ) : State :=
  let s2 := updatePercent c (updateWindow (applyDelta c s num) now)
  { s2 with lastPercent := s2.currentPercent }

/-- A fixed instantiation of the external collaborators, used to evaluate
the model on concrete inputs: `durStr` is constantly `"0s"` (the real
`Duration.String` of a zero duration), the terminal is 80 columns wide, the
spinner table yields `"|"`, display width is the character count (exact for
ASCII), and color translation is the identity (no color markup is used). -/
def env0 : Env :=
  { durStr := fun _ => "0s", termWidth := 80,
    spinnerFrame := fun _ _ => "|", strWidth := fun s => (s.length : Int),
    colorize := id, stripAnsi := id }

/-- A known-length tracker configuration with `max = 50` and zero throttle
(time displays off and a narrow bar keep the rendered lines short). -/
def c1cfg : Config :=
  { defaultConfig 50 with predictTime := false, elapsedTime := false, width := 10 }

/-- The state reached from a fresh tracker after fifty `Add(1)` calls. -/
def c1state : State :=
  (runAdds env0 c1cfg (List.replicate 50 ((1 : Int), (0 : ℚ))) (getBasicState 0)).1

/-- A tracker constructed with the negative maximum `-2` (not the
unknown-length sentinel `-1`). -/
def c2cfg : Config := finalizeConfig (defaultConfig (-2))

/-- A valid tracker with `max = 2` and a completion callback configured. -/
def c3cfg : Config := { defaultConfig 2 with hasOnCompletion := true }

/-- A tracker with byte display enabled and iteration-count display
disabled. -/
def c4cfg : Config := { defaultConfig 1000 with showBytes := true }

/-- An ANSI-mode tracker configuration. -/
def c5cfg : Config :=
  { defaultConfig 100 with
    useANSICodes := true, predictTime := false, elapsedTime := false }

/-- A mid-run state: a previous line five columns wide was rendered, the
count is 10 of 100, not finished. -/
def c5state : State :=
  { getBasicState 0 with
    maxLineWidth := 5, currentNum := 10, currentPercent := 10,
    lastPercent := 10 }

/-- An unknown-length tracker constructed with `max = -1` and width 1. -/
def c6cfg : Config := (NewOptions64 (-1) [POption.setWidth 1]).getD (defaultConfig 0)

/-- An unknown-length tracker configuration of width 3 (before
`finalizeConfig`). -/
def c6cfg2 : Config := { defaultConfig (-1) with width := 3 }

/-- A state whose rate history is full (ten entries) with an open window. -/
def c8state : State :=
  { getBasicState 0 with
    counterLastTenRates := List.replicate 10 1, counterNumSinceLast := 3 }

/-- A known-length tracker state whose count overshot the maximum 5 (a
single `Add(7)` from zero). -/
def c10state : State := { getBasicState 0 with currentNum := 7 }

/-- Rat.floor agrees with the Mathlib floor on `ℚ`. -/
theorem ratFloor_eq_intFloor (q : ℚ) : Rat.floor q = ⌊q⌋ := by
  rw [Rat.floor_def', Rat.floor_def]

/-- Truncation toward zero is odd. -/
theorem ratTrunc_neg (q : ℚ) : ratTrunc (-q) = -ratTrunc q := by
  unfold ratTrunc
  simp [Int.neg_tdiv]

/-- On non-negative rationals, truncation toward zero is the floor. -/
theorem ratTrunc_eq_floor {q : ℚ} (h : 0 ≤ q) : ratTrunc q = ⌊q⌋ := by
  unfold ratTrunc
  rw [Int.tdiv_eq_ediv (Rat.num_nonneg.mpr h) (Int.natCast_nonneg q.den)]
  rw [Rat.floor_def]

theorem ratTrunc_nonneg {q : ℚ} (h : 0 ≤ q) : 0 ≤ ratTrunc q := by
  rw [ratTrunc_eq_floor h]
  exact Int.floor_nonneg.mpr h

theorem ratTrunc_nonpos {q : ℚ} (h : q ≤ 0) : ratTrunc q ≤ 0 := by
  have h1 : ratTrunc q = -ratTrunc (-q) := by rw [ratTrunc_neg]; omega
  have h2 : 0 ≤ ratTrunc (-q) := ratTrunc_nonneg (by linarith)
  omega

theorem ratTrunc_lt_of_lt {q : ℚ} {n : ℤ} (hn : 0 < n) (h : q < (n : ℚ)) :
    ratTrunc q < n := by
  rcases le_or_lt 0 q with hq | hq
  · rw [ratTrunc_eq_floor hq]
    exact Int.floor_lt.mpr h
  · have := ratTrunc_nonpos hq.le
    omega

theorem ratTrunc_intCast (n : ℤ) : ratTrunc (n : ℚ) = n := by
  unfold ratTrunc
  simp

/-- The integer percentage `int(float64(a)/float64(b)*100)` is below 100
while the count is below the maximum. -/
theorem percent_lt_100 {a b : ℤ} (hb : 0 < b) (h : a < b) :
    ratTrunc ((a : ℚ) / (b : ℚ) * 100) < 100 := by
  have hb' : (0 : ℚ) < (b : ℚ) := by exact_mod_cast hb
  have h1 : (a : ℚ) / (b : ℚ) < 1 := (div_lt_one hb').mpr (by exact_mod_cast h)
  have h2 : (a : ℚ) / (b : ℚ) * 100 < ((100 : ℤ) : ℚ) := by push_cast; nlinarith
  exact ratTrunc_lt_of_lt (by norm_num) h2

/-- The integer percentage is exactly 100 when the count equals the
maximum. -/
theorem percent_at_max {b : ℤ} (hb : b ≠ 0) :
    ratTrunc ((b : ℚ) / (b : ℚ) * 100) = 100 := by
  have h1 : (b : ℚ) / (b : ℚ) = 1 := div_self (by exact_mod_cast hb)
  rw [h1, one_mul]
  have := ratTrunc_intCast 100
  exact_mod_cast this

theorem intLogAux_spec {b : ℕ} (hb : 2 ≤ b) :
    ∀ fuel n, n ≤ fuel → 1 ≤ n →
      b ^ intLogAux b fuel n ≤ n ∧ n < b ^ (intLogAux b fuel n + 1)
  | 0, n, hf, h1 => by omega
  | fuel + 1, n, hf, h1 => by
    rw [intLogAux]
    split
    · next hlt => simpa using ⟨h1, hlt⟩
    · next hge =>
      push_neg at hge
      have hb0 : 0 < b := by omega
      have hdiv1 : 1 ≤ n / b := (Nat.one_le_div_iff hb0).mpr hge
      have hdivlt : n / b < n := Nat.div_lt_self (by omega) hb
      obtain ⟨hl, hr⟩ := intLogAux_spec hb fuel (n / b) (by omega) hdiv1
      refine ⟨?_, ?_⟩
      · calc b ^ (intLogAux b fuel (n / b) + 1)
              = b ^ intLogAux b fuel (n / b) * b := by ring
          _ ≤ n / b * b := Nat.mul_le_mul_right b hl
          _ ≤ n := Nat.div_mul_le_self n b
      · have hm : n % b < b := Nat.mod_lt n hb0
        have hq : n / b + 1 ≤ b ^ (intLogAux b fuel (n / b) + 1) := hr
        calc n = b * (n / b) + n % b := (Nat.div_add_mod n b).symm
          _ < b * (n / b) + b := by omega
          _ = (n / b + 1) * b := by ring
          _ ≤ b ^ (intLogAux b fuel (n / b) + 1) * b := Nat.mul_le_mul_right b hq
          _ = b ^ (intLogAux b fuel (n / b) + 1 + 1) := by ring

/-- `intLog b n` is the integer logarithm: `b ^ intLog b n ≤ n < b ^ (intLog b n + 1)`. -/
theorem intLog_spec {b n : ℕ} (hb : 2 ≤ b) (h1 : 1 ≤ n) :
    b ^ intLog b n ≤ n ∧ n < b ^ (intLog b n + 1) :=
  intLogAux_spec hb n n le_rfl h1

/-- Uniqueness of the integer logarithm. -/
theorem intLog_eq {b n e : ℕ} (hb : 2 ≤ b) (hle : b ^ e ≤ n)
    (hlt : n < b ^ (e + 1)) : intLog b n = e := by
  have h1 : 1 ≤ n := le_trans (Nat.one_le_pow _ _ (by omega)) hle
  obtain ⟨hl, hr⟩ := intLog_spec hb h1
  rcases Nat.lt_trichotomy (intLog b n) e with hlt2 | heq | hgt
  · have h3 : b ^ (intLog b n + 1) ≤ b ^ e := Nat.pow_le_pow_right (by omega) hlt2
    omega
  · exact heq
  · have h3 : b ^ (e + 1) ≤ b ^ intLog b n := Nat.pow_le_pow_right (by omega) hgt
    omega

/-- Half-even rounding never rounds below the floor. -/
theorem floor_le_roundHalfEven (q : ℚ) : Rat.floor q ≤ roundHalfEven q := by
  simp only [roundHalfEven]
  split
  · omega
  · split
    · omega
    · split <;> omega

/-- Half-even rounding of an integer is that integer. -/
theorem roundHalfEven_intCast (n : ℤ) : roundHalfEven (n : ℚ) = n := by
  unfold roundHalfEven
  rw [ratFloor_eq_intFloor]
  norm_num

theorem roundHalfEven_natCast (n : ℕ) : roundHalfEven (n : ℚ) = (n : ℤ) := by
  have := roundHalfEven_intCast (n : ℤ)
  push_cast at this
  exact this

theorem applyDelta_misc (c : Config) (s : State) (num : Int) :
    (applyDelta c s num).exit = s.exit ∧
    (applyDelta c s num).finished = s.finished ∧
    (applyDelta c s num).lastPercent = s.lastPercent ∧
    (applyDelta c s num).startTime = s.startTime ∧
    (applyDelta c s num).lastShown = s.lastShown ∧
    (applyDelta c s num).counterTime = s.counterTime ∧
    (applyDelta c s num).counterLastTenRates = s.counterLastTenRates ∧
    (applyDelta c s num).maxLineWidth = s.maxLineWidth ∧
    (applyDelta c s num).currentBytes = s.currentBytes + (num : ℚ) ∧
    (applyDelta c s num).counterNumSinceLast = s.counterNumSinceLast + num := by
  simp only [applyDelta]
  split
  · split <;> simp
  · simp

theorem applyDelta_currentNum_lt {c : Config} {s : State} (num : Int)
    (h : s.currentNum < c.max) (hig : c.ignoreLength = false) :
    (applyDelta c s num).currentNum = s.currentNum + num := by
  simp [applyDelta, h, hig]

theorem applyDelta_currentNum_wrap {c : Config} {s : State} (num : Int)
    (h : s.currentNum < c.max) (hig : c.ignoreLength = true) :
    (applyDelta c s num).currentNum = Int.tmod (s.currentNum + num) c.max := by
  simp [applyDelta, h, hig]

theorem applyDelta_currentNum_ge {c : Config} {s : State} (num : Int)
    (h : ¬ s.currentNum < c.max) :
    (applyDelta c s num).currentNum = s.currentNum := by
  simp [applyDelta, h]

theorem updateWindow_misc (s : State) (now : ℚ) :
    (updateWindow s now).currentNum = s.currentNum ∧
    (updateWindow s now).exit = s.exit ∧
    (updateWindow s now).finished = s.finished ∧
    (updateWindow s now).lastPercent = s.lastPercent ∧
    (updateWindow s now).startTime = s.startTime ∧
    (updateWindow s now).lastShown = s.lastShown ∧
    (updateWindow s now).maxLineWidth = s.maxLineWidth ∧
    (updateWindow s now).currentBytes = s.currentBytes := by
  simp only [updateWindow]
  split <;> simp

theorem updateWindow_push {s : State} {now : ℚ}
    (h : (1 : ℚ)/2 < now - s.counterTime) :
    (updateWindow s now).counterLastTenRates =
      (if 10 < (s.counterLastTenRates ++
            [(s.counterNumSinceLast : ℚ) / (now - s.counterTime)]).length then
        (s.counterLastTenRates ++
          [(s.counterNumSinceLast : ℚ) / (now - s.counterTime)]).tail
      else
        s.counterLastTenRates ++
          [(s.counterNumSinceLast : ℚ) / (now - s.counterTime)]) ∧
    (updateWindow s now).counterTime = now ∧
    (updateWindow s now).counterNumSinceLast = 0 := by
  simp only [updateWindow]
  rw [if_pos h]
  simp

theorem updateWindow_nopush {s : State} {now : ℚ}
    (h : ¬ (1 : ℚ)/2 < now - s.counterTime) :
    (updateWindow s now).counterLastTenRates = s.counterLastTenRates ∧
    (updateWindow s now).counterTime = s.counterTime ∧
    (updateWindow s now).counterNumSinceLast = s.counterNumSinceLast := by
  simp only [updateWindow]
  rw [if_neg h]
  simp

/-- The rate history never grows beyond ten entries in one window update. -/
theorem updateWindow_rates_le_ten {s : State} (now : ℚ)
    (h : s.counterLastTenRates.length ≤ 10) :
    (updateWindow s now).counterLastTenRates.length ≤ 10 := by
  simp only [updateWindow]
  split
  · split
    · next hlen =>
      simp only [List.length_tail]
      simp at hlen ⊢
      omega
    · next hlen =>
      simp at hlen ⊢
      omega
  · simpa using h

theorem updatePercent_misc (c : Config) (s : State) :
    (updatePercent c s).currentNum = s.currentNum ∧
    (updatePercent c s).exit = s.exit ∧
    (updatePercent c s).finished = s.finished ∧
    (updatePercent c s).lastPercent = s.lastPercent ∧
    (updatePercent c s).startTime = s.startTime ∧
    (updatePercent c s).lastShown = s.lastShown ∧
    (updatePercent c s).counterTime = s.counterTime ∧
    (updatePercent c s).counterNumSinceLast = s.counterNumSinceLast ∧
    (updatePercent c s).counterLastTenRates = s.counterLastTenRates ∧
    (updatePercent c s).maxLineWidth = s.maxLineWidth ∧
    (updatePercent c s).currentBytes = s.currentBytes ∧
    (updatePercent c s).currentPercent =
      ratTrunc ((s.currentNum : ℚ) / (c.max : ℚ) * 100) := by
  simp [updatePercent]

/-- `renderProgressBar` only writes `currentSaucerSize`, `isAltSaucerHead`
and `rendered`; every other state field is preserved. -/
theorem renderProgressBar_state (env : Env) (c : Config) (s : State) (now : ℚ) :
    (renderProgressBar env c s now).1.currentNum = s.currentNum ∧
    (renderProgressBar env c s now).1.currentPercent = s.currentPercent ∧
    (renderProgressBar env c s now).1.lastPercent = s.lastPercent ∧
    (renderProgressBar env c s now).1.startTime = s.startTime ∧
    (renderProgressBar env c s now).1.lastShown = s.lastShown ∧
    (renderProgressBar env c s now).1.counterTime = s.counterTime ∧
    (renderProgressBar env c s now).1.counterNumSinceLast = s.counterNumSinceLast ∧
    (renderProgressBar env c s now).1.counterLastTenRates = s.counterLastTenRates ∧
    (renderProgressBar env c s now).1.maxLineWidth = s.maxLineWidth ∧
    (renderProgressBar env c s now).1.currentBytes = s.currentBytes ∧
    (renderProgressBar env c s now).1.finished = s.finished ∧
    (renderProgressBar env c s now).1.exit = s.exit := by
  simp [renderProgressBar]

/-- `render` never changes the counters, percentages or the halt flag. -/
theorem render_preserve (env : Env) (c : Config) (s : State) (now : ℚ) :
    (render env c s now).st.currentNum = s.currentNum ∧
    (render env c s now).st.currentPercent = s.currentPercent ∧
    (render env c s now).st.lastPercent = s.lastPercent ∧
    (render env c s now).st.startTime = s.startTime ∧
    (render env c s now).st.counterTime = s.counterTime ∧
    (render env c s now).st.counterNumSinceLast = s.counterNumSinceLast ∧
    (render env c s now).st.counterLastTenRates = s.counterLastTenRates ∧
    (render env c s now).st.currentBytes = s.currentBytes ∧
    (render env c s now).st.exit = s.exit := by
  obtain ⟨p1, p2, p3, p4, p5, p6, p7, p8, p9, p10, p11, p12⟩ :=
    renderProgressBar_state env c { s with finished := true } now
  obtain ⟨q1, q2, q3, q4, q5, q6, q7, q8, q9, q10, q11, q12⟩ :=
    renderProgressBar_state env c s now
  unfold render
  repeat' split
  all_goals simp_all

/-- While the count is strictly below the maximum, `render` cannot finish
the bar nor invoke the completion callback. -/
theorem render_of_lt (env : Env) (c : Config) (s : State) (now : ℚ)
    (h : s.currentNum < c.max) :
    (render env c s now).st.finished = s.finished ∧
    (render env c s now).fired = 0 := by
  obtain ⟨q1, q2, q3, q4, q5, q6, q7, q8, q9, q10, q11, q12⟩ :=
    renderProgressBar_state env c s now
  unfold render
  split
  · simp
  · rw [if_neg (by intro hc; omega)]
    repeat' split
    all_goals simp_all

/-- When an unfinished bar has reached its maximum, a non-throttled `render`
performs the one-way finished transition and invokes the completion
callback (when one is configured). -/
theorem render_finish (env : Env) (c : Config) (s : State) (now : ℚ)
    (hge : c.max ≤ s.currentNum) (hfin : s.finished = false) :
    (render env c s now).st.finished = true ∧
    (render env c s now).fired = (if c.hasOnCompletion then 1 else 0) := by
  obtain ⟨p1, p2, p3, p4, p5, p6, p7, p8, p9, p10, p11, p12⟩ :=
    renderProgressBar_state env c { s with finished := true } now
  unfold render
  rw [if_neg (by intro hc; omega)]
  rw [if_pos ⟨hfin, hge⟩]
  repeat' split
  all_goals simp_all

/-- `Add64` on a non-halted tracker with a non-zero maximum: the state goes
through `applyDelta`, `updateWindow`, `updatePercent` and the `lastPercent`
overwrite, an overshooting count returns the OutOfRange error before any
render, and otherwise `render` runs exactly when the integer percentage
changed (and is positive) or iteration-count display is on. -/
theorem Add64_eq (env : Env) (c : Config) (s : State) (num : Int) (now : ℚ)
    (hexit : s.exit = false) (hmax : c.max ≠ 0) :
    Add64 env c s num now =
      (let s2 := updatePercent c (updateWindow (applyDelta c s num) now)
       let s3 : State := { s2 with lastPercent := s2.currentPercent }
       if c.max < s3.currentNum then
         { st := s3, err := some .exceedsMax, fired := 0, out := "" }
       else if (s2.currentPercent ≠ s2.lastPercent ∧ 0 < s2.currentPercent) ∨
           c.showIterationsCount = true then
         let r := render env c s3 now
         { st := r.st, err := none, fired := r.fired, out := r.out }
       else { st := s3, err := none, fired := 0, out := "" }) := by
  unfold Add64
  rw [if_neg (by simp [hexit]), if_neg hmax]

/-- progressbar.go line 297: a halted tracker makes `Add64` a complete
no-op returning nil. -/
theorem Add64_exit (env : Env) (c : Config) (s : State) (num : Int) (now : ℚ)
    (h : s.exit = true) :
    Add64 env c s num now = { st := s, err := none, fired := 0, out := "" } := by
  simp [Add64, h]

/-- progressbar.go lines 301-303: `max == 0` makes `Add64` fail with the
"max must be greater than 0" error before touching any state. -/
theorem Add64_max0 (env : Env) (c : Config) (s : State) (num : Int) (now : ℚ)
    (hexit : s.exit = false) (h : c.max = 0) :
    Add64 env c s num now =
      { st := s, err := some .maxNotPositive, fired := 0, out := "" } := by
  simp [Add64, hexit, h]

/-- `Add64` on a non-halted tracker with non-zero maximum, written with
`preRenderState`. -/
theorem Add64_cases (env : Env) (c : Config) (s : State) (num : Int) (now : ℚ)
    (hexit : s.exit = false) (hmax : c.max ≠ 0) :
    Add64 env c s num now =
      (if c.max < (preRenderState c s num now).currentNum then
        { st := preRenderState c s num now, err := some .exceedsMax, fired := 0,
          out := "" }
      else if ((updatePercent c (updateWindow (applyDelta c s num) now)).currentPercent ≠
            (updatePercent c (updateWindow (applyDelta c s num) now)).lastPercent ∧
            0 < (updatePercent c (updateWindow (applyDelta c s num) now)).currentPercent) ∨
          c.showIterationsCount = true then
        { st := (render env c (preRenderState c s num now) now).st, err := none,
          fired := (render env c (preRenderState c s num now) now).fired,
          out := (render env c (preRenderState c s num now) now).out }
      else
        { st := preRenderState c s num now, err := none, fired := 0, out := "" }) := by
  rw [Add64_eq env c s num now hexit hmax]
  rfl

/-- Field bookkeeping of the pre-render state. -/
theorem preRenderState_fields (c : Config) (s : State) (num : Int) (now : ℚ) :
    (preRenderState c s num now).exit = s.exit ∧
    (preRenderState c s num now).finished = s.finished ∧
    (preRenderState c s num now).currentNum = (applyDelta c s num).currentNum ∧
    (preRenderState c s num now).currentPercent =
      ratTrunc (((applyDelta c s num).currentNum : ℚ) / (c.max : ℚ) * 100) ∧
    (preRenderState c s num now).lastPercent =
      (preRenderState c s num now).currentPercent ∧
    (preRenderState c s num now).currentBytes = s.currentBytes + (num : ℚ) ∧
    (preRenderState c s num now).startTime = s.startTime ∧
    (updatePercent c (updateWindow (applyDelta c s num) now)).currentPercent =
      (preRenderState c s num now).currentPercent ∧
    (updatePercent c (updateWindow (applyDelta c s num) now)).lastPercent =
      s.lastPercent ∧
    (preRenderState c s num now).counterTime =
      (updateWindow (applyDelta c s num) now).counterTime ∧
    (preRenderState c s num now).counterNumSinceLast =
      (updateWindow (applyDelta c s num) now).counterNumSinceLast ∧
    (preRenderState c s num now).counterLastTenRates =
      (updateWindow (applyDelta c s num) now).counterLastTenRates := by
  obtain ⟨a1, a2, a3, a4, a5, a6, a7, a8, a9, a10⟩ := applyDelta_misc c s num
  obtain ⟨w1, w2, w3, w4, w5, w6, w7, w8⟩ :=
    updateWindow_misc (applyDelta c s num) now
  obtain ⟨u1, u2, u3, u4, u5, u6, u7, u8, u9, u10, u11, u12⟩ :=
    updatePercent_misc c (updateWindow (applyDelta c s num) now)
  simp only [preRenderState]
  refine ⟨?_, ?_, ?_, ?_, ?_, ?_, ?_, ?_, ?_, ?_, ?_, ?_⟩ <;> simp_all

/-- One-step unfolding of `runAdds`. -/
theorem runAdds_cons (env : Env) (c : Config) (a : Int × ℚ)
    (l : List (Int × ℚ)) (s : State) :
    runAdds env c (a :: l) s =
      ((runAdds env c l (Add64 env c s a.1 a.2).st).1,
       (Add64 env c s a.1 a.2).fired +
         (runAdds env c l (Add64 env c s a.1 a.2).st).2) := rfl

/-- A unit `Add` strictly below the maximum (with room to spare) increments
the count, cannot finish the bar, keeps the percentage below 100 and fires
no callback. -/
theorem Add64_unit_mid (env : Env) (c : Config) (s : State) (now : ℚ)
    (hexit : s.exit = false) (hmax : 0 < c.max) (hig : c.ignoreLength = false)
    (hfin : s.finished = false) (hlt : s.currentNum < c.max)
    (hlt2 : s.currentNum + 1 < c.max) :
    (Add64 env c s 1 now).st.currentNum = s.currentNum + 1 ∧
    (Add64 env c s 1 now).st.exit = false ∧
    (Add64 env c s 1 now).st.finished = false ∧
    (Add64 env c s 1 now).st.lastPercent < 100 ∧
    (Add64 env c s 1 now).fired = 0 := by
  have hmaxne : c.max ≠ 0 := by omega
  rw [Add64_cases env c s 1 now hexit hmaxne]
  have hnum : (applyDelta c s 1).currentNum = s.currentNum + 1 :=
    applyDelta_currentNum_lt 1 hlt hig
  obtain ⟨hp1, hp2, hp3, hp4, hp5, hp6, hp7, hp8, hp9, hp10, hp11, hp12⟩ :=
    preRenderState_fields c s 1 now
  have hnum3 : (preRenderState c s 1 now).currentNum = s.currentNum + 1 := by
    rw [hp3, hnum]
  have hperc : (preRenderState c s 1 now).currentPercent < 100 := by
    rw [hp4, hnum]
    exact percent_lt_100 hmax hlt2
  rw [if_neg (by omega)]
  split
  · obtain ⟨r1, r2, r3, r4, r5, r6, r7, r8, r9⟩ :=
      render_preserve env c (preRenderState c s 1 now) now
    obtain ⟨f1, f2⟩ := render_of_lt env c (preRenderState c s 1 now) now (by omega)
    refine ⟨?_, ?_, ?_, ?_, ?_⟩ <;> simp_all
  · refine ⟨?_, ?_, ?_, ?_, ?_⟩ <;> simp_all

/-- The unit `Add` that makes the count reach the maximum exactly: the bar
finishes and the completion callback is invoked (when configured). -/
theorem Add64_unit_last (env : Env) (c : Config) (s : State) (now : ℚ)
    (hexit : s.exit = false) (hmax : 0 < c.max) (hig : c.ignoreLength = false)
    (hfin : s.finished = false) (hlp : s.lastPercent < 100)
    (heq : s.currentNum + 1 = c.max) :
    (Add64 env c s 1 now).st.finished = true ∧
    (Add64 env c s 1 now).fired = (if c.hasOnCompletion then 1 else 0) := by
  have hmaxne : c.max ≠ 0 := by omega
  have hlt : s.currentNum < c.max := by omega
  rw [Add64_cases env c s 1 now hexit hmaxne]
  have hnum : (applyDelta c s 1).currentNum = s.currentNum + 1 :=
    applyDelta_currentNum_lt 1 hlt hig
  obtain ⟨hp1, hp2, hp3, hp4, hp5, hp6, hp7, hp8, hp9, hp10, hp11, hp12⟩ :=
    preRenderState_fields c s 1 now
  have hnum3 : (preRenderState c s 1 now).currentNum = c.max := by
    rw [hp3, hnum, heq]
  have hperc : (preRenderState c s 1 now).currentPercent = 100 := by
    rw [hp4, hnum, heq]
    exact percent_at_max hmaxne
  have hA : (updatePercent c (updateWindow (applyDelta c s 1) now)).currentPercent =
      100 := by rw [hp8, hperc]
  have hB : (updatePercent c (updateWindow (applyDelta c s 1) now)).lastPercent =
      s.lastPercent := hp9
  rw [if_neg (by omega)]
  rw [if_pos (Or.inl ⟨by omega, by omega⟩)]
  obtain ⟨f1, f2⟩ := render_finish env c (preRenderState c s 1 now) now
    (by omega) (by rw [hp2, hfin])
  exact ⟨f1, f2⟩

/-- Driving a fresh-style tracker with unit adds up to its maximum finishes
it and fires the callback exactly once across the whole run. -/
theorem run_unit_completes (env : Env) (c : Config)
    (hmax : 0 < c.max) (hig : c.ignoreLength = false) :
    ∀ (ts : List ℚ) (s : State), s.exit = false → s.finished = false →
      s.currentNum + ts.length = c.max → s.lastPercent < 100 → ts ≠ [] →
      (runAdds env c (ts.map fun t => ((1 : Int), t)) s).1.finished = true ∧
      (runAdds env c (ts.map fun t => ((1 : Int), t)) s).2 =
        (if c.hasOnCompletion then 1 else 0)
  | [], _, _, _, _, _, hne => absurd rfl hne
  | [t], s, hexit, hfin, hlen, hlp, _ => by
    have heq : s.currentNum + 1 = c.max := by simp at hlen; omega
    obtain ⟨h1, h2⟩ := Add64_unit_last env c s t hexit hmax hig hfin hlp heq
    simp [runAdds, h1, h2]
  | t :: t2 :: rest, s, hexit, hfin, hlen, hlp, _ => by
    have hlt2 : s.currentNum + 1 < c.max := by simp at hlen; omega
    have hlt : s.currentNum < c.max := by omega
    obtain ⟨h1, h2, h3, h4, h5⟩ :=
      Add64_unit_mid env c s t hexit hmax hig hfin hlt hlt2
    have IH := run_unit_completes env c hmax hig (t2 :: rest)
      (Add64 env c s 1 t).st h2 h3 (by simp at hlen ⊢; omega) h4 (by simp)
    simp only [List.map_cons] at IH ⊢
    rw [runAdds_cons]
    exact ⟨IH.1, by simp [h5, IH.2]⟩

/-- A unit `Add` in unknown-length mode wraps the count modulo the
maximum and never halts the tracker. -/
theorem Add64_unit_wrapstep (env : Env) (c : Config) (s : State) (now : ℚ)
    (hexit : s.exit = false) (hmax : 0 < c.max) (hig : c.ignoreLength = true)
    (hge0 : 0 ≤ s.currentNum) (hlt : s.currentNum < c.max) :
    (Add64 env c s 1 now).st.currentNum = (s.currentNum + 1) % c.max ∧
    (Add64 env c s 1 now).st.exit = false := by
  have hmaxne : c.max ≠ 0 := by omega
  rw [Add64_cases env c s 1 now hexit hmaxne]
  have hnum : (applyDelta c s 1).currentNum = Int.tmod (s.currentNum + 1) c.max :=
    applyDelta_currentNum_wrap 1 hlt hig
  have htm : Int.tmod (s.currentNum + 1) c.max = (s.currentNum + 1) % c.max :=
    Int.tmod_eq_emod (by omega) (by omega)
  obtain ⟨hp1, hp2, hp3, hp4, hp5, hp6, hp7, hp8, hp9, hp10, hp11, hp12⟩ :=
    preRenderState_fields c s 1 now
  have hnum3 : (preRenderState c s 1 now).currentNum = (s.currentNum + 1) % c.max := by
    rw [hp3, hnum, htm]
  have hbound : (s.currentNum + 1) % c.max < c.max := Int.emod_lt_of_pos _ hmax
  rw [if_neg (by omega)]
  split
  · obtain ⟨r1, r2, r3, r4, r5, r6, r7, r8, r9⟩ :=
      render_preserve env c (preRenderState c s 1 now) now
    constructor <;> simp_all
  · constructor <;> simp_all

/-- In unknown-length mode, after any sequence of unit adds the count is
the number of adds modulo the maximum. -/
theorem run_unit_wrap (env : Env) (c : Config)
    (hmax : 0 < c.max) (hig : c.ignoreLength = true) :
    ∀ (ts : List ℚ) (s : State), s.exit = false → 0 ≤ s.currentNum →
      s.currentNum < c.max →
      (runAdds env c (ts.map fun t => ((1 : Int), t)) s).1.currentNum =
        (s.currentNum + ts.length) % c.max
  | [], s, hexit, h0, hlt => by
    simp only [List.map_nil, runAdds, List.length_nil, Nat.cast_zero, add_zero]
    exact (Int.emod_eq_of_lt h0 hlt).symm
  | t :: rest, s, hexit, h0, hlt => by
    obtain ⟨h1, h2⟩ := Add64_unit_wrapstep env c s t hexit hmax hig h0 hlt
    have hb1 : 0 ≤ (s.currentNum + 1) % c.max := Int.emod_nonneg _ (by omega)
    have hb2 : (s.currentNum + 1) % c.max < c.max := Int.emod_lt_of_pos _ hmax
    have IH := run_unit_wrap env c hmax hig rest (Add64 env c s 1 t).st h2
      (h1 ▸ hb1) (h1 ▸ hb2)
    rw [List.map_cons, runAdds_cons]
    show (runAdds env c (rest.map fun t => ((1 : Int), t)) (Add64 env c s 1 t).st).1.currentNum = _
    rw [IH, h1]
    have hmm : ∀ a b m : ℤ, (a % m + b) % m = (a + b) % m := fun a b m => by
      conv_lhs => rw [Int.add_emod]
      conv_rhs => rw [Int.add_emod]
      rw [Int.emod_emod_of_dvd _ dvd_rfl]
    rw [hmm]
    simp only [List.length_cons]
    congr 1
    push_cast
    ring

/-- A known-length `Add64` whose resulting count stays within the maximum:
the count follows the increment-only-below-max rule, no error is returned,
the tracker is not halted, and the percentage is recomputed from the new
count. -/
theorem Add64_delta_step (env : Env) (c : Config) (s : State) (num : Int) (now : ℚ)
    (hexit : s.exit = false) (hmax : 0 < c.max) (hig : c.ignoreLength = false)
    (hnew : (if s.currentNum < c.max then s.currentNum + num else s.currentNum) ≤ c.max) :
    (Add64 env c s num now).st.currentNum =
      (if s.currentNum < c.max then s.currentNum + num else s.currentNum) ∧
    (Add64 env c s num now).st.exit = false ∧
    (Add64 env c s num now).err = none ∧
    (Add64 env c s num now).st.currentPercent =
      ratTrunc
        ((((if s.currentNum < c.max then s.currentNum + num else s.currentNum) : ℤ) : ℚ) /
          (c.max : ℚ) * 100) := by
  have hmaxne : c.max ≠ 0 := by omega
  rw [Add64_cases env c s num now hexit hmaxne]
  have hnum : (applyDelta c s num).currentNum =
      (if s.currentNum < c.max then s.currentNum + num else s.currentNum) := by
    by_cases h : s.currentNum < c.max
    · rw [if_pos h]
      exact applyDelta_currentNum_lt num h hig
    · rw [if_neg h]
      exact applyDelta_currentNum_ge num h
  obtain ⟨hp1, hp2, hp3, hp4, hp5, hp6, hp7, hp8, hp9, hp10, hp11, hp12⟩ :=
    preRenderState_fields c s num now
  have hnum3 := hp3.trans hnum
  have hperc := hp4
  rw [hnum] at hperc
  rw [if_neg (by omega)]
  split
  · obtain ⟨r1, r2, r3, r4, r5, r6, r7, r8, r9⟩ :=
      render_preserve env c (preRenderState c s num now) now
    refine ⟨?_, ?_, rfl, ?_⟩ <;> simp_all
  · refine ⟨?_, ?_, rfl, ?_⟩ <;> simp_all

/-- Feeding a known-length tracker non-negative deltas that sum exactly to
the maximum drives the count to the maximum and the final integer
percentage to 100. -/
theorem run_sum_reaches (env : Env) (c : Config)
    (hmax : 0 < c.max) (hig : c.ignoreLength = false) :
    ∀ (ds : List (Int × ℚ)) (s : State), s.exit = false →
      (∀ d ∈ ds, 0 ≤ d.1) →
      s.currentNum + (ds.map Prod.fst).sum = c.max →
      s.currentNum ≤ c.max →
      (runAdds env c ds s).1.currentNum = c.max ∧
      (ds ≠ [] → (runAdds env c ds s).1.currentPercent = 100)
  | [], s, hexit, hpos, hsum, hle => by
    refine ⟨?_, fun h => absurd rfl h⟩
    simpa using hsum
  | d :: rest, s, hexit, hpos, hsum, hle => by
    have hmaxne : c.max ≠ 0 := by omega
    have hrest0 : 0 ≤ (rest.map Prod.fst).sum := by
      apply List.sum_nonneg
      intro x hx
      obtain ⟨p, hp, rfl⟩ := List.mem_map.mp hx
      exact hpos p (List.mem_cons_of_mem _ hp)
    have hd0 : 0 ≤ d.1 := hpos d (List.mem_cons_self _ _)
    simp only [List.map_cons, List.sum_cons] at hsum
    have hnew_le :
        (if s.currentNum < c.max then s.currentNum + d.1 else s.currentNum) ≤ c.max := by
      by_cases h : s.currentNum < c.max
      · rw [if_pos h]; omega
      · rw [if_neg h]; omega
    obtain ⟨g1, g2, g3, g4⟩ := Add64_delta_step env c s d.1 d.2 hexit hmax hig hnew_le
    have hkey : (Add64 env c s d.1 d.2).st.currentNum + (rest.map Prod.fst).sum = c.max ∧
        (Add64 env c s d.1 d.2).st.currentNum ≤ c.max := by
      by_cases h : s.currentNum < c.max
      · rw [g1, if_pos h]
        rw [if_pos h] at hnew_le
        omega
      · rw [g1, if_neg h]
        rw [if_neg h] at hnew_le
        omega
    rcases Decidable.em (rest = []) with hre | hre
    · subst hre
      have hcn : (Add64 env c s d.1 d.2).st.currentNum = c.max := by
        have := hkey.1
        simpa using this
      have hicast : (if s.currentNum < c.max then s.currentNum + d.1 else s.currentNum) =
          c.max := by rw [← g1]; exact hcn
      rw [hicast] at g4
      have hperc : (Add64 env c s d.1 d.2).st.currentPercent = 100 := by
        rw [g4]; exact percent_at_max hmaxne
      rw [runAdds_cons]
      exact ⟨hcn, fun _ => hperc⟩
    · have IH := run_sum_reaches env c hmax hig rest (Add64 env c s d.1 d.2).st g2
        (fun p hp => hpos p (List.mem_cons_of_mem _ hp)) hkey.1 hkey.2
      rw [runAdds_cons]
      exact ⟨IH.1, fun _ => IH.2 hre⟩

/-- Whatever else `Add64` does, the rate-window fields of the result are
those computed by `updateWindow` after the delta accumulation. -/
theorem Add64_counter_eq (env : Env) (c : Config) (s : State) (num : Int) (now : ℚ)
    (hexit : s.exit = false) (hmaxne : c.max ≠ 0) :
    (Add64 env c s num now).st.counterTime =
      (updateWindow (applyDelta c s num) now).counterTime ∧
    (Add64 env c s num now).st.counterNumSinceLast =
      (updateWindow (applyDelta c s num) now).counterNumSinceLast ∧
    (Add64 env c s num now).st.counterLastTenRates =
      (updateWindow (applyDelta c s num) now).counterLastTenRates := by
  rw [Add64_cases env c s num now hexit hmaxne]
  obtain ⟨hp1, hp2, hp3, hp4, hp5, hp6, hp7, hp8, hp9, hp10, hp11, hp12⟩ :=
    preRenderState_fields c s num now
  split
  · exact ⟨hp10, hp11, hp12⟩
  · split
    · obtain ⟨r1, r2, r3, r4, r5, r6, r7, r8, r9⟩ :=
        render_preserve env c (preRenderState c s num now) now
      exact ⟨r5.trans hp10, r6.trans hp11, r7.trans hp12⟩
    · exact ⟨hp10, hp11, hp12⟩

/-- `Add64` never changes the halt flag. -/
theorem Add64_exit_preserve (env : Env) (c : Config) (s : State) (num : Int)
    (now : ℚ) : (Add64 env c s num now).st.exit = s.exit := by
  by_cases hexit : s.exit = true
  · rw [Add64_exit env c s num now hexit]
  · have hexit' : s.exit = false := by simpa using hexit
    by_cases hmax : c.max = 0
    · rw [Add64_max0 env c s num now hexit' hmax]
    · rw [Add64_cases env c s num now hexit' hmax]
      obtain ⟨hp1, hp2, hp3, hp4, hp5, hp6, hp7, hp8, hp9, hp10, hp11, hp12⟩ :=
        preRenderState_fields c s num now
      split
      · exact hp1
      · split
        · obtain ⟨r1, r2, r3, r4, r5, r6, r7, r8, r9⟩ :=
            render_preserve env c (preRenderState c s num now) now
          exact r9.trans hp1
        · exact hp1

/-- One `Add64` call keeps the rate history within ten entries. -/
theorem Add64_rates_le_ten (env : Env) (c : Config) (num : Int) (now : ℚ)
    (s : State) (h : s.counterLastTenRates.length ≤ 10) :
    (Add64 env c s num now).st.counterLastTenRates.length ≤ 10 := by
  by_cases hexit : s.exit = true
  · rw [Add64_exit env c s num now hexit]; exact h
  · have hexit' : s.exit = false := by simpa using hexit
    by_cases hmax : c.max = 0
    · rw [Add64_max0 env c s num now hexit' hmax]; exact h
    · obtain ⟨e1, e2, e3⟩ := Add64_counter_eq env c s num now hexit' hmax
      rw [e3]
      apply updateWindow_rates_le_ten
      obtain ⟨a1, a2, a3, a4, a5, a6, a7, a8, a9, a10⟩ := applyDelta_misc c s num
      rw [a7]
      exact h

/-- Any number of `Add64` calls keeps the rate history within ten
entries. -/
theorem run_rates_le_ten (env : Env) (c : Config) :
    ∀ (calls : List (Int × ℚ)) (s : State), s.counterLastTenRates.length ≤ 10 →
      (runAdds env c calls s).1.counterLastTenRates.length ≤ 10
  | [], _, h => h
  | a :: rest, s, h => by
    rw [runAdds_cons]
    exact run_rates_le_ten env c rest _ (Add64_rates_le_ten env c a.1 a.2 s h)

/-- Once the count exceeds the maximum, no sequence of further `Add64`
calls ever changes it. -/
theorem run_stuck_above (env : Env) (c : Config) (hmax : 0 < c.max) :
    ∀ (calls : List (Int × ℚ)) (s : State), s.exit = false →
      c.max < s.currentNum →
      (runAdds env c calls s).1.currentNum = s.currentNum
  | [], _, _, _ => rfl
  | a :: rest, s, hexit, hgt => by
    have hmaxne : c.max ≠ 0 := by omega
    obtain ⟨hp1, hp2, hp3, hp4, hp5, hp6, hp7, hp8, hp9, hp10, hp11, hp12⟩ :=
      preRenderState_fields c s a.1 a.2
    have hnum : (applyDelta c s a.1).currentNum = s.currentNum :=
      applyDelta_currentNum_ge a.1 (by omega)
    have hnum3 : (preRenderState c s a.1 a.2).currentNum = s.currentNum :=
      hp3.trans hnum
    have hstep : Add64 env c s a.1 a.2 =
        { st := preRenderState c s a.1 a.2, err := some .exceedsMax, fired := 0,
          out := "" } := by
      rw [Add64_cases env c s a.1 a.2 hexit hmaxne, if_pos (by omega)]
    rw [runAdds_cons]
    show (runAdds env c rest (Add64 env c s a.1 a.2).st).1.currentNum = s.currentNum
    rw [hstep]
    exact (run_stuck_above env c hmax rest (preRenderState c s a.1 a.2)
      (by rw [hp1]; exact hexit) (by omega)).trans hnum3

set_option maxRecDepth 400000 in
/-- C1 counterexample: for a tracker with known length max = 50 and zero
throttle, after 50 calls to Add(1) have completed the bar (count = 50,
finished flag set), the next Add(1) made without any halt returns nil — it
does NOT fail with the OutOfRange error as the claim states. -/
theorem C1_counterexample :
    c1state.currentNum = 50 ∧ c1state.finished = true ∧
    (Add64 env0 c1cfg c1state 1 0).err = none := by
  with_unfolding_all decide

/-- C1 (amended): a halted tracker makes Add a complete no-op; a tracker
whose count equals the maximum exactly (as after max unit adds) accepts
further Add calls without any error and without changing the count — the
OutOfRange error needs the count to exceed the maximum, which unit adds up
to the maximum never produce. -/
theorem C1_theorem (env : Env) (c : Config) (s : State) (num : Int) (now : ℚ) :
    (s.exit = true →
      Add64 env c s num now = { st := s, err := none, fired := 0, out := "" }) ∧
    (s.exit = false → c.max ≠ 0 → s.currentNum = c.max →
      (Add64 env c s num now).err = none ∧
      (Add64 env c s num now).st.currentNum = c.max) := by
  constructor
  · exact fun h => Add64_exit env c s num now h
  · intro hexit hmaxne heq
    rw [Add64_cases env c s num now hexit hmaxne]
    obtain ⟨hp1, hp2, hp3, hp4, hp5, hp6, hp7, hp8, hp9, hp10, hp11, hp12⟩ :=
      preRenderState_fields c s num now
    have hnum : (applyDelta c s num).currentNum = s.currentNum :=
      applyDelta_currentNum_ge num (by omega)
    have hnum3 : (preRenderState c s num now).currentNum = c.max :=
      hp3.trans (hnum.trans heq)
    rw [if_neg (by omega)]
    split
    · obtain ⟨r1, r2, r3, r4, r5, r6, r7, r8, r9⟩ :=
        render_preserve env c (preRenderState c s num now) now
      exact ⟨rfl, r1.trans hnum3⟩
    · exact ⟨rfl, hnum3⟩

set_option maxRecDepth 400000 in
/-- C1 witness: the amended statement evaluated at the completed
50-step tracker. -/
theorem C1_witness :
    (c1state.exit = false ∧ c1cfg.max ≠ 0 ∧ c1state.currentNum = c1cfg.max) ∧
    ((Add64 env0 c1cfg c1state 1 0).err = none ∧
     (Add64 env0 c1cfg c1state 1 0).st.currentNum = c1cfg.max) :=
  ⟨by with_unfolding_all decide,
   (C1_theorem env0 c1cfg c1state 1 0).2 (by with_unfolding_all decide)
     (by with_unfolding_all decide) (by with_unfolding_all decide)⟩

/-- C2 counterexample: a tracker constructed with maximum -2 (negative, not
the unknown-length sentinel) does not fail with the InvalidConfiguration
error — Add(1) returns the OutOfRange error instead, and it does mutate
state (the byte accumulator becomes 1). -/
theorem C2_counterexample :
    c2cfg.max = -2 ∧
    (Add64 env0 c2cfg (getBasicState 0) 1 0).err = some AddError.exceedsMax ∧
    (Add64 env0 c2cfg (getBasicState 0) 1 0).st.currentBytes = 1 := by
  with_unfolding_all decide

/-- C2 (amended): on a non-halted tracker, Add fails with the
InvalidConfiguration error ("max must be greater than 0") and performs no
state change exactly when the configured maximum is 0; for a negative
maximum (other than the sentinel -1, which the constructor rewrites) Add
instead mutates the byte accumulator and returns the OutOfRange error. -/
theorem C2_theorem (env : Env) (c : Config) (s : State) (num : Int) (now : ℚ)
    (hexit : s.exit = false) :
    (c.max = 0 →
      Add64 env c s num now =
        { st := s, err := some .maxNotPositive, fired := 0, out := "" }) ∧
    (c.max < 0 → 0 ≤ s.currentNum →
      (Add64 env c s num now).err = some .exceedsMax ∧
      (Add64 env c s num now).st.currentBytes = s.currentBytes + (num : ℚ) ∧
      (Add64 env c s num now).st.currentNum = s.currentNum) := by
  constructor
  · exact fun h => Add64_max0 env c s num now hexit h
  · intro hneg hge
    have hmaxne : c.max ≠ 0 := by omega
    rw [Add64_cases env c s num now hexit hmaxne]
    obtain ⟨hp1, hp2, hp3, hp4, hp5, hp6, hp7, hp8, hp9, hp10, hp11, hp12⟩ :=
      preRenderState_fields c s num now
    have hnum : (applyDelta c s num).currentNum = s.currentNum :=
      applyDelta_currentNum_ge num (by omega)
    have hnum3 : (preRenderState c s num now).currentNum = s.currentNum :=
      hp3.trans hnum
    rw [if_pos (by omega)]
    exact ⟨rfl, hp6, hnum3⟩

/-- C2 witness: the amended statement evaluated on a fresh tracker with
maximum 0 and on the maximum -2 tracker. -/
theorem C2_witness :
    ((getBasicState 0).exit = false ∧ c2cfg.max < 0 ∧
      0 ≤ (getBasicState 0).currentNum) ∧
    ((Add64 env0 c2cfg (getBasicState 0) 1 0).err = some .exceedsMax ∧
     (Add64 env0 c2cfg (getBasicState 0) 1 0).st.currentBytes =
       (getBasicState 0).currentBytes + ((1 : ℤ) : ℚ) ∧
     (Add64 env0 c2cfg (getBasicState 0) 1 0).st.currentNum =
       (getBasicState 0).currentNum) :=
  ⟨by with_unfolding_all decide,
   (C2_theorem env0 c2cfg (getBasicState 0) 1 0 rfl).2
     (by with_unfolding_all decide) (by with_unfolding_all decide)⟩

/-- C3: for every tracker with max > 0 (known length, completion callback
configured), after exactly max calls to Add(1) — at arbitrary call times —
the finished flag is true and the completion callback has been invoked
exactly once over the whole sequence. -/
theorem C3_theorem (env : Env) (c : Config) (ts : List ℚ) (t0 : ℚ)
    (hmax : 0 < c.max) (hig : c.ignoreLength = false)
    (hcb : c.hasOnCompletion = true) (hlen : (ts.length : Int) = c.max) :
    (runAdds env c (ts.map fun t => ((1 : Int), t))
        (getBasicState t0)).1.finished = true ∧
    (runAdds env c (ts.map fun t => ((1 : Int), t)) (getBasicState t0)).2 = 1 := by
  have hne : ts ≠ [] := by
    intro h
    subst h
    simp at hlen
    omega
  have h := run_unit_completes env c hmax hig ts (getBasicState t0) rfl rfl
    (by simp [getBasicState]; omega) (by simp [getBasicState]) hne
  rw [hcb] at h
  simpa using h

/-- C3 witness: a tracker of maximum 2 with a callback, two unit adds. -/
theorem C3_witness :
    ((0 : Int) < c3cfg.max ∧ c3cfg.ignoreLength = false ∧
      c3cfg.hasOnCompletion = true ∧ ((([0, 0] : List ℚ)).length : Int) = c3cfg.max) ∧
    ((runAdds env0 c3cfg ((([0, 0] : List ℚ)).map fun t => ((1 : Int), t))
        (getBasicState 0)).1.finished = true ∧
     (runAdds env0 c3cfg ((([0, 0] : List ℚ)).map fun t => ((1 : Int), t))
        (getBasicState 0)).2 = 1) :=
  ⟨by with_unfolding_all decide,
   C3_theorem env0 c3cfg [0, 0] 0 (by with_unfolding_all decide) rfl rfl
     (by with_unfolding_all decide)⟩

/-- C4: the code contradicts its own comment ("always update if show
bytes/second or its/second", progressbar.go line 336): with byte display
enabled and iteration-count display disabled, an Add(1) that leaves the
integer percentage at 0 triggers no redraw at all — nothing is written and
nothing is rendered — although the claim (and the comment) say byte display
alone forces a redraw on every call. -/
theorem C4_theorem :
    c4cfg.showBytes = true ∧ c4cfg.showIterationsCount = false ∧
    (Add64 env0 c4cfg (getBasicState 0) 1 0).err = none ∧
    (Add64 env0 c4cfg (getBasicState 0) 1 0).out = "" ∧
    (Add64 env0 c4cfg (getBasicState 0) 1 0).st.rendered = "" := by
  with_unfolding_all decide

/-- C5 counterexample: in ANSI mode, a non-throttled, non-finished render
with a previously rendered line (maxLineWidth = 5) writes a new line but
does NOT first emit the erase-line escape sequence: the output does not
begin with ESC[2K. -/
theorem C5_counterexample :
    c5cfg.useANSICodes = true ∧ c5state.finished = false ∧
    0 < c5state.maxLineWidth ∧
    (render env0 c5cfg c5state 1).out ≠ "" ∧
    (render env0 c5cfg c5state 1).out.take 4 ≠ "\x1b[2K" := by
  with_unfolding_all decide

/-- C5 (amended): on a non-throttled, non-finished render, when ANSI mode
is disabled the previous line is cleared first — a carriage return,
maxLineWidth spaces and another carriage return precede the new line
(nothing precedes it when no line was ever rendered) — but when ANSI mode
is enabled no clearing happens before the new line at all; the erase-line
escape sequence is what `clearProgressBar` would write in ANSI mode, and
render only invokes it in the finished clear-on-finish path. -/
theorem C5_theorem (env : Env) (c : Config) (s : State) (now : ℚ)
    (hfin : s.finished = false) (hlt : s.currentNum < c.max)
    (hthr : ¬ ratTrunc ((now - s.lastShown) * 1000000000) < c.throttleNs) :
    (c.useANSICodes = false →
      (render env c s now).out =
        clearProgressBar c s ++ (renderProgressBar env c s now).2.1 ∧
      (0 < s.maxLineWidth →
        clearProgressBar c s =
          "\r" ++ strRepeat " " s.maxLineWidth.toNat ++ "\r")) ∧
    (c.useANSICodes = true →
      (render env c s now).out = (renderProgressBar env c s now).2.1 ∧
      (s.maxLineWidth ≠ 0 → clearProgressBar c s = "\x1b[2K\r")) := by
  have hout : (render env c s now).out =
      (if c.useANSICodes = false then clearProgressBar c s else "") ++
        (renderProgressBar env c s now).2.1 := by
    unfold render
    rw [if_neg (by intro hc; exact hthr hc.1)]
    rw [if_neg (by intro hc; omega)]
    rw [if_neg (by rw [hfin]; exact Bool.false_ne_true)]
  refine ⟨fun hansi => ⟨?_, fun hw => ?_⟩, fun hansi => ⟨?_, fun hw => ?_⟩⟩
  · rw [hout, if_pos hansi]
  · unfold clearProgressBar
    rw [if_neg (by omega), if_neg (by rw [hansi]; exact Bool.false_ne_true)]
  · rw [hout, if_neg (by simp [hansi])]
    simp
  · unfold clearProgressBar
    rw [if_neg hw, if_pos (by rw [hansi])]

/-- C5 witness: the amended statement evaluated on a non-ANSI tracker mid
run (a 5-column line was rendered before). -/
theorem C5_witness :
    (c5state.finished = false ∧ c5state.currentNum < (defaultConfig 100).max ∧
      ¬ ratTrunc (((1 : ℚ) - c5state.lastShown) * 1000000000) <
        (defaultConfig 100).throttleNs ∧
      (defaultConfig 100).useANSICodes = false ∧ 0 < c5state.maxLineWidth) ∧
    ((render env0 (defaultConfig 100) c5state 1).out =
      clearProgressBar (defaultConfig 100) c5state ++
        (renderProgressBar env0 (defaultConfig 100) c5state 1).2.1 ∧
     clearProgressBar (defaultConfig 100) c5state =
       "\r" ++ strRepeat " " c5state.maxLineWidth.toNat ++ "\r") :=
  ⟨by with_unfolding_all decide,
   ⟨((C5_theorem env0 (defaultConfig 100) c5state 1 rfl
        (by with_unfolding_all decide) (by with_unfolding_all decide)).1 rfl).1,
    ((C5_theorem env0 (defaultConfig 100) c5state 1 rfl
        (by with_unfolding_all decide) (by with_unfolding_all decide)).1 rfl).2
      (by with_unfolding_all decide)⟩⟩

set_option maxRecDepth 400000 in
/-- C6 counterexample: an unknown-length tracker constructed with max = -1
and width 1 has max = width = 1, and after max + 1 = 2 unit increments the
current count is 0, not 1 as the claim states. -/
theorem C6_counterexample :
    NewOptions64 (-1) [POption.setWidth 1] = some c6cfg ∧
    c6cfg.ignoreLength = true ∧ c6cfg.max = 1 ∧
    (runAdds env0 c6cfg (List.replicate 2 ((1 : Int), (0 : ℚ)))
        (getBasicState 0)).1.currentNum = 0 ∧
    ¬ (runAdds env0 c6cfg (List.replicate 2 ((1 : Int), (0 : ℚ)))
        (getBasicState 0)).1.currentNum = 1 := by
  refine ⟨by with_unfolding_all rfl, ?_, ?_, ?_, ?_⟩ <;> with_unfolding_all decide

/-- C6 (amended): constructing with max = -1 activates unknown-length mode
with max = the configured width; after any k unit increments the count is
k mod max (so it never exceeds max - 1), and for widths of at least 2,
after max + 1 unit increments the count is exactly 1 (for width 1 the count
is always 0). -/
theorem C6_theorem (env : Env) (c0 : Config) (ts : List ℚ) (t0 : ℚ)
    (hmax : c0.max = -1) (_hig : c0.ignoreLength = false) (hw : 0 < c0.width) :
    (finalizeConfig c0).ignoreLength = true ∧
    (finalizeConfig c0).max = c0.width ∧
    (runAdds env (finalizeConfig c0) (ts.map fun t => ((1 : Int), t))
        (getBasicState t0)).1.currentNum = (ts.length : Int) % c0.width ∧
    (runAdds env (finalizeConfig c0) (ts.map fun t => ((1 : Int), t))
        (getBasicState t0)).1.currentNum ≤ c0.width - 1 ∧
    (2 ≤ c0.width → (ts.length : Int) = c0.width + 1 →
      (runAdds env (finalizeConfig c0) (ts.map fun t => ((1 : Int), t))
          (getBasicState t0)).1.currentNum = 1) := by
  have hfin1 : (finalizeConfig c0).ignoreLength = true := by
    simp [finalizeConfig, hmax]
  have hfin2 : (finalizeConfig c0).max = c0.width := by
    simp [finalizeConfig, hmax]
  have hrun := run_unit_wrap env (finalizeConfig c0) (by rw [hfin2]; exact hw)
    hfin1 ts (getBasicState t0) rfl (by simp [getBasicState])
    (by simp [getBasicState]; rw [hfin2]; exact hw)
  rw [hfin2] at hrun
  have hzero : (getBasicState t0).currentNum = 0 := rfl
  rw [hzero, zero_add] at hrun
  refine ⟨hfin1, hfin2, hrun, ?_, ?_⟩
  · rw [hrun]
    have := Int.emod_lt_of_pos (ts.length : Int) hw
    omega
  · intro hw2 hlen
    rw [hrun, hlen]
    have h1 : c0.width + 1 = 1 + c0.width * 1 := by ring
    rw [h1, Int.add_mul_emod_self_left]
    exact Int.emod_eq_of_lt (by omega) (by omega)

/-- C6 witness: width 3, four unit increments, count wraps to 1. -/
theorem C6_witness :
    (c6cfg2.max = -1 ∧ c6cfg2.ignoreLength = false ∧ 0 < c6cfg2.width ∧
      (2 : Int) ≤ c6cfg2.width ∧
      ((([0, 0, 0, 0] : List ℚ)).length : Int) = c6cfg2.width + 1) ∧
    (runAdds env0 (finalizeConfig c6cfg2)
        ((([0, 0, 0, 0] : List ℚ)).map fun t => ((1 : Int), t))
        (getBasicState 0)).1.currentNum = 1 :=
  ⟨by with_unfolding_all decide,
   (C6_theorem env0 c6cfg2 [0, 0, 0, 0] 0 rfl rfl (by with_unfolding_all decide)).2.2.2.2
     (by with_unfolding_all decide) (by with_unfolding_all decide)⟩

/-- C7: for a known-length tracker with time prediction enabled, driving it
with non-negative deltas summing exactly to the maximum makes the final
count equal the maximum and the final integer percentage equal 100; with
time prediction on, the remaining-time string is a duration string and
hence never empty, and the bracketed time segment of the rendered line is
empty exactly at 100 percent — at every percentage strictly below 100 it is
the full " [elapsed:remaining]" block. -/
theorem C7_theorem (env : Env) (c : Config) (ds : List (Int × ℚ)) (t0 now : ℚ)
    (l r : String)
    (hmax : 0 < c.max) (hig : c.ignoreLength = false) (hpt : c.predictTime = true)
    (hpos : ∀ d ∈ ds, 0 ≤ d.1) (hsum : (ds.map Prod.fst).sum = c.max)
    (hdur : ∀ k, env.durStr k ≠ "") :
    (runAdds env c ds (getBasicState t0)).1.currentNum = c.max ∧
    (runAdds env c ds (getBasicState t0)).1.currentPercent = 100 ∧
    timeSegment (runAdds env c ds (getBasicState t0)).1.currentPercent l r = "" ∧
    (∀ (s : State) (ar : ℚ), (bracketsOf env c s now ar).2 ≠ "") ∧
    (∀ p : Int, p < 100 →
      timeSegment p l r = " [" ++ l ++ ":" ++ r ++ "]" ∧ timeSegment p l r ≠ "") := by
  have hne : ds ≠ [] := by
    intro h
    subst h
    simp at hsum
    omega
  obtain ⟨h1, h2⟩ := run_sum_reaches env c hmax hig ds (getBasicState t0) rfl hpos
    (by simpa [getBasicState] using hsum) (by simp [getBasicState]; omega)
  refine ⟨h1, h2 hne, ?_, ?_, ?_⟩
  · rw [h2 hne]
    simp [timeSegment]
  · intro s ar
    simp only [bracketsOf, hpt, if_pos]
    exact hdur _
  · intro p hp
    have hne100 : p ≠ 100 := by omega
    constructor
    · simp [timeSegment, hne100]
    · simp only [timeSegment, hne100, if_false, ite_false, if_neg hne100]
      intro hemp
      have hlen2 := congrArg String.length hemp
      simp only [String.length_append] at hlen2
      rw [show (" [" : String).length = 2 from rfl,
        show (":" : String).length = 1 from rfl,
        show ("]" : String).length = 1 from rfl,
        show ("" : String).length = 0 from rfl] at hlen2
      omega

/-- C7 witness: maximum 2, two unit deltas, concrete bracket strings. -/
theorem C7_witness :
    ((0 : Int) < (defaultConfig 2).max ∧ (defaultConfig 2).ignoreLength = false ∧
      (defaultConfig 2).predictTime = true ∧
      (([((1 : Int), (0 : ℚ)), ((1 : Int), (0 : ℚ))].map Prod.fst).sum =
        (defaultConfig 2).max)) ∧
    ((runAdds env0 (defaultConfig 2) [((1 : Int), (0 : ℚ)), ((1 : Int), (0 : ℚ))]
        (getBasicState 0)).1.currentNum = (defaultConfig 2).max ∧
     (runAdds env0 (defaultConfig 2) [((1 : Int), (0 : ℚ)), ((1 : Int), (0 : ℚ))]
        (getBasicState 0)).1.currentPercent = 100 ∧
     timeSegment
       (runAdds env0 (defaultConfig 2) [((1 : Int), (0 : ℚ)), ((1 : Int), (0 : ℚ))]
          (getBasicState 0)).1.currentPercent "1s" "2s" = "" ∧
     (bracketsOf env0 (defaultConfig 2) (getBasicState 0) 0 1).2 ≠ "" ∧
     timeSegment 50 "1s" "2s" ≠ "") :=
  have happ := C7_theorem env0 (defaultConfig 2)
    [((1 : Int), (0 : ℚ)), ((1 : Int), (0 : ℚ))] 0 0 "1s" "2s"
    (by with_unfolding_all decide) rfl rfl
    (by intro d hd; fin_cases hd <;> decide)
    (by with_unfolding_all decide) (fun k => by simp [env0])
  ⟨⟨by with_unfolding_all decide, rfl, rfl, by with_unfolding_all decide⟩,
   happ.1, happ.2.1, happ.2.2.1, happ.2.2.2.1 (getBasicState 0) 1,
   (happ.2.2.2.2 50 (by decide)).2⟩

/-- C8: the rolling-rate bookkeeping of Add — the window rate is pushed
exactly when more than half a second elapsed since the window start, the
window is then reset, the history never exceeds ten entries across any
number of Add calls, and when the history is full the oldest entry is
evicted first. -/
theorem C8_theorem (env : Env) (c : Config) (s : State) (num : Int) (now : ℚ)
    (hexit : s.exit = false) (hmaxne : c.max ≠ 0) :
    (¬ (1 : ℚ)/2 < now - s.counterTime →
      (Add64 env c s num now).st.counterLastTenRates = s.counterLastTenRates ∧
      (Add64 env c s num now).st.counterNumSinceLast =
        s.counterNumSinceLast + num ∧
      (Add64 env c s num now).st.counterTime = s.counterTime) ∧
    ((1 : ℚ)/2 < now - s.counterTime →
      (Add64 env c s num now).st.counterNumSinceLast = 0 ∧
      (Add64 env c s num now).st.counterTime = now ∧
      (Add64 env c s num now).st.counterLastTenRates =
        (if 10 < (s.counterLastTenRates ++
              [((s.counterNumSinceLast + num : ℤ) : ℚ) / (now - s.counterTime)]).length then
          (s.counterLastTenRates ++
            [((s.counterNumSinceLast + num : ℤ) : ℚ) / (now - s.counterTime)]).tail
        else
          s.counterLastTenRates ++
            [((s.counterNumSinceLast + num : ℤ) : ℚ) / (now - s.counterTime)])) ∧
    (s.counterLastTenRates.length ≤ 10 →
      (Add64 env c s num now).st.counterLastTenRates.length ≤ 10) ∧
    (s.counterLastTenRates.length = 10 → (1 : ℚ)/2 < now - s.counterTime →
      (Add64 env c s num now).st.counterLastTenRates =
        s.counterLastTenRates.tail ++
          [((s.counterNumSinceLast + num : ℤ) : ℚ) / (now - s.counterTime)]) ∧
    (∀ (calls : List (Int × ℚ)) (s0 : State),
      s0.counterLastTenRates.length ≤ 10 →
      (runAdds env c calls s0).1.counterLastTenRates.length ≤ 10) := by
  obtain ⟨e1, e2, e3⟩ := Add64_counter_eq env c s num now hexit hmaxne
  obtain ⟨a1, a2, a3, a4, a5, a6, a7, a8, a9, a10⟩ := applyDelta_misc c s num
  refine ⟨?_, ?_, ?_, ?_, ?_⟩
  · intro h
    have h' : ¬ (1 : ℚ)/2 < now - (applyDelta c s num).counterTime := by
      rw [a6]; exact h
    obtain ⟨w1, w2, w3⟩ := updateWindow_nopush h'
    rw [a6] at w2
    rw [a7] at w1
    rw [a10] at w3
    exact ⟨e3.trans w1, e2.trans w3, e1.trans w2⟩
  · intro h
    have h' : (1 : ℚ)/2 < now - (applyDelta c s num).counterTime := by
      rw [a6]; exact h
    obtain ⟨w1, w2, w3⟩ := updateWindow_push h'
    rw [a6, a7, a10] at w1
    exact ⟨e2.trans w3, e1.trans w2, e3.trans w1⟩
  · exact fun h => Add64_rates_le_ten env c num now s h
  · intro hlen hcond
    have h' : (1 : ℚ)/2 < now - (applyDelta c s num).counterTime := by
      rw [a6]; exact hcond
    obtain ⟨w1, w2, w3⟩ := updateWindow_push h'
    rw [a6, a7, a10] at w1
    rw [e3, w1]
    rw [if_pos (by simp [hlen])]
    cases hL : s.counterLastTenRates with
    | nil => rw [hL] at hlen; simp at hlen
    | cons x xs => simp
  · exact fun calls s0 h => run_rates_le_ten env c calls s0 h

/-- C8 witness: a full (ten-entry) rate history with an open window of
count 3; an Add(2) at one second evicts the oldest entry and appends the
window rate. -/
theorem C8_witness :
    (c8state.exit = false ∧ (defaultConfig 10).max ≠ 0 ∧
      c8state.counterLastTenRates.length = 10 ∧
      (1 : ℚ)/2 < 1 - c8state.counterTime) ∧
    (Add64 env0 (defaultConfig 10) c8state 2 1).st.counterLastTenRates =
      c8state.counterLastTenRates.tail ++
        [((c8state.counterNumSinceLast + 2 : ℤ) : ℚ) / (1 - c8state.counterTime)] :=
  ⟨by with_unfolding_all decide,
   (C8_theorem env0 (defaultConfig 10) c8state 2 1 rfl
       (by with_unfolding_all decide)).2.2.2.1
     (by with_unfolding_all decide) (by with_unfolding_all decide)⟩

/-- C10: in known-length mode `Add64` increments the count only while it is
strictly below the maximum, so the count can exceed the maximum only when a
single call overshoots it from below; and once the count exceeds the
maximum, every subsequent non-halted call leaves it unchanged forever,
still accumulates the delta into the byte total, renders nothing, and
returns the OutOfRange error. -/
theorem C10_theorem (env : Env) (c : Config) (s : State) (num : Int) (now : ℚ)
    (hig : c.ignoreLength = false) (hmax : 0 < c.max) (hexit : s.exit = false) :
    (c.max ≤ s.currentNum → (Add64 env c s num now).st.currentNum = s.currentNum) ∧
    (s.currentNum ≤ c.max → c.max < (Add64 env c s num now).st.currentNum →
      s.currentNum < c.max ∧
      (Add64 env c s num now).st.currentNum = s.currentNum + num) ∧
    (c.max < s.currentNum →
      (Add64 env c s num now).err = some AddError.exceedsMax ∧
      (Add64 env c s num now).st.currentNum = s.currentNum ∧
      (Add64 env c s num now).st.currentBytes = s.currentBytes + (num : ℚ) ∧
      (Add64 env c s num now).fired = 0 ∧ (Add64 env c s num now).out = "") ∧
    (∀ calls : List (Int × ℚ), c.max < s.currentNum →
      (runAdds env c calls s).1.currentNum = s.currentNum) := by
  have hmaxne : c.max ≠ 0 := by omega
  obtain ⟨hp1, hp2, hp3, hp4, hp5, hp6, hp7, hp8, hp9, hp10, hp11, hp12⟩ :=
    preRenderState_fields c s num now
  have hcount : (Add64 env c s num now).st.currentNum =
      (applyDelta c s num).currentNum := by
    rw [Add64_cases env c s num now hexit hmaxne]
    split
    · exact hp3
    · split
      · obtain ⟨r1, r2, r3, r4, r5, r6, r7, r8, r9⟩ :=
          render_preserve env c (preRenderState c s num now) now
        exact r1.trans hp3
      · exact hp3
  refine ⟨?_, ?_, ?_, ?_⟩
  · intro hge
    rw [hcount, applyDelta_currentNum_ge num (by omega)]
  · intro hle hgt
    by_cases hlt : s.currentNum < c.max
    · exact ⟨hlt, by rw [hcount, applyDelta_currentNum_lt num hlt hig]⟩
    · exfalso
      rw [hcount, applyDelta_currentNum_ge num hlt] at hgt
      omega
  · intro hgt
    have hnum3 : (preRenderState c s num now).currentNum = s.currentNum :=
      hp3.trans (applyDelta_currentNum_ge num (by omega))
    rw [Add64_cases env c s num now hexit hmaxne, if_pos (by omega)]
    exact ⟨rfl, hnum3, hp6, rfl, rfl⟩
  · intro calls hgt
    exact run_stuck_above env c hmax calls s hexit hgt

/-- C10 witness: a state whose count 7 overshot the maximum 5; an Add(2)
changes nothing but the byte total and returns the OutOfRange error. -/
theorem C10_witness :
    ((defaultConfig 5).ignoreLength = false ∧ (0 : Int) < (defaultConfig 5).max ∧
      c10state.exit = false ∧ (defaultConfig 5).max < c10state.currentNum) ∧
    ((Add64 env0 (defaultConfig 5) c10state 2 0).err = some AddError.exceedsMax ∧
     (Add64 env0 (defaultConfig 5) c10state 2 0).st.currentNum =
       c10state.currentNum ∧
     (Add64 env0 (defaultConfig 5) c10state 2 0).st.currentBytes =
       c10state.currentBytes + ((2 : ℤ) : ℚ) ∧
     (Add64 env0 (defaultConfig 5) c10state 2 0).fired = 0 ∧
     (Add64 env0 (defaultConfig 5) c10state 2 0).out = "") :=
  ⟨by with_unfolding_all decide,
   (C10_theorem env0 (defaultConfig 5) c10state 2 0 rfl
       (by with_unfolding_all decide) (by with_unfolding_all decide)).2.2.1
     (by with_unfolding_all decide)⟩

theorem toString_int_natCast (n : ℕ) : toString ((n : ℕ) : ℤ) = toString n := rfl

theorem int_tdiv_natCast (a b : ℕ) :
    Int.tdiv ((a : ℕ) : ℤ) ((b : ℕ) : ℤ) = ((a / b : ℕ) : ℤ) :=
  (Int.ofNat_tdiv a b).symm

theorem int_tmod_natCast (a b : ℕ) :
    Int.tmod ((a : ℕ) : ℤ) ((b : ℕ) : ℤ) = ((a % b : ℕ) : ℤ) :=
  (Int.ofNat_tmod a b).symm

theorem floor_toNat_natCast (n : ℕ) : (Rat.floor ((n : ℕ) : ℚ)).toNat = n := by
  rw [ratFloor_eq_intFloor]
  simp

/-- Unfolding of `humanizeBytes` on a natural-number quantity of at least
10 bytes. -/
theorem humanizeBytes_natCast_ge {n : ℕ} (h10 : 10 ≤ n) :
    humanizeBytes (n : ℚ) =
      (let e := intLog 1024 n
       let suffix := [" B", " KB", " MB", " GB", " TB", " PB", " EB"].getD e ""
       let val : ℚ :=
         ((Rat.floor ((n : ℚ) / ((1024 : ℚ) ^ e) * 10 + 1/2) : ℤ) : ℚ) / 10
       if val < 10 then (fmtF1 val, suffix) else (fmtF0 val, suffix)) := by
  have hnot : ¬ (n : ℚ) < 10 := by
    simp only [not_lt]
    exact_mod_cast h10
  simp only [humanizeBytes]
  rw [if_neg hnot, floor_toNat_natCast]

theorem intLog_1024_one {n : ℕ} (h1 : 1024 ≤ n) (h2 : n < 1048576) :
    intLog 1024 n = 1 :=
  intLog_eq (by norm_num) (by simpa using h1) (by norm_num; omega)

/-- The scaled-and-rounded tenth for a natural byte count in the KB range. -/
theorem val10_e1 (n : ℕ) :
    Rat.floor ((n : ℚ) / ((1024 : ℚ) ^ 1) * 10 + 1/2) =
      (((10 * n + 512) / 1024 : ℕ) : ℤ) := by
  rw [ratFloor_eq_intFloor]
  have harith : (n : ℚ) / ((1024 : ℚ) ^ 1) * 10 + 1/2 =
      (((10 * n + 512 : ℕ) : ℚ)) / (((1024 : ℕ) : ℕ) : ℚ) := by
    push_cast
    ring
  rw [harith, Rat.floor_natCast_div_natCast]
  omega

/-- C9 counterexample: `humanizeBytes` formats 5 with the width-2 verb
`%2.0f`, so the two returned parts concatenate to " 5 B" (leading pad
space), not "5 B" as the claim states. -/
theorem C9_counterexample :
    (humanizeBytes 5).1 ++ (humanizeBytes 5).2 ≠ "5 B" ∧
    (humanizeBytes 5).1 ++ (humanizeBytes 5).2 = " 5 B" := by
  with_unfolding_all decide

/-- C9 (amended): byte humanization uses binary (1024) multiples with the
suffix table B/KB/MB/GB/TB/PB/EB; 5 formats as the two-character
right-aligned " 5" with suffix " B" (the claim's "5 B" misses the pad
space of the `%2.0f` verb); 1024, 1536 and 10240 format as "1.0 KB",
"1.5 KB" and "10 KB"; every count below 10 formats as the padded plain
integer, counts in [10, 1024) as the plain integer with no decimal,
scaled values below 10 print exactly one decimal digit and scaled values
of 10 or more print an integer with no decimal. -/
theorem C9_theorem :
    humanizeBytes (5 : ℚ) = (" 5", " B") ∧
    humanizeBytes 1024 = ("1.0", " KB") ∧
    humanizeBytes 1536 = ("1.5", " KB") ∧
    humanizeBytes 10240 = ("10", " KB") ∧
    (∀ n : ℕ, n < 10 → humanizeBytes (n : ℚ) = (padLeft (toString n) 2, " B")) ∧
    (∀ n : ℕ, 10 ≤ n → n < 1024 → humanizeBytes (n : ℚ) = (toString n, " B")) ∧
    (∀ (e : ℕ) (q : ℚ), e ≤ 6 → 10 ≤ q → (1024 : ℚ) ^ e ≤ q →
      q < (1024 : ℚ) ^ (e + 1) →
      (humanizeBytes q).2 =
        [" B", " KB", " MB", " GB", " TB", " PB", " EB"].getD e "") ∧
    (∀ n : ℕ, 1024 ≤ n → n ≤ 10188 →
      ∃ a b : ℕ, a < 10 ∧ b < 10 ∧
        (humanizeBytes (n : ℚ)).1 = toString a ++ "." ++ toString b) ∧
    (∀ n : ℕ, 10189 ≤ n → n < 1048576 →
      ∃ a : ℤ, 10 ≤ a ∧ (humanizeBytes (n : ℚ)).1 = toString a) := by
  refine ⟨by with_unfolding_all decide, by with_unfolding_all decide,
    by with_unfolding_all decide, by with_unfolding_all decide,
    ?_, ?_, ?_, ?_, ?_⟩
  · intro n hn
    have hlt : (n : ℚ) < 10 := by exact_mod_cast hn
    simp only [humanizeBytes]
    rw [if_pos hlt]
    simp only [fmtF2w0, fmtF0]
    rw [roundHalfEven_natCast, toString_int_natCast]
  · intro n h10 h1024
    rw [humanizeBytes_natCast_ge h10]
    have he : intLog 1024 n = 0 :=
      intLog_eq (by norm_num) (by simp only [pow_zero]; omega)
        (by simpa using h1024)
    simp only [he]
    have hval : Rat.floor ((n : ℚ) / ((1024 : ℚ) ^ 0) * 10 + 1/2) =
        ((10 * n : ℕ) : ℤ) := by
      rw [ratFloor_eq_intFloor]
      have harith : (n : ℚ) / ((1024 : ℚ) ^ 0) * 10 + 1/2 =
          1/2 + ((10 * n : ℕ) : ℚ) := by
        push_cast
        ring
      rw [harith, Int.floor_add_nat]
      norm_num
    rw [hval]
    have hv2 : ((((10 * n : ℕ) : ℤ)) : ℚ) / 10 = (n : ℚ) := by
      push_cast
      ring
    rw [hv2]
    have hnot : ¬ (n : ℚ) < 10 := by
      simp only [not_lt]
      exact_mod_cast h10
    rw [if_neg hnot]
    simp only [fmtF0]
    rw [roundHalfEven_natCast, toString_int_natCast]
    simp
  · intro e q _he6 h10 hle hlt
    have hq0 : (0 : ℚ) ≤ q := by linarith
    have hfl : Rat.floor q = ⌊q⌋ := ratFloor_eq_intFloor q
    have h1 : ((1024 ^ e : ℕ) : ℚ) ≤ q := by push_cast; exact hle
    have h2 : ((1024 ^ e : ℕ) : ℤ) ≤ ⌊q⌋ := Int.le_floor.mpr (by exact_mod_cast h1)
    have h3 : (⌊q⌋ : ℚ) ≤ q := Int.floor_le q
    have h4 : q < ((1024 ^ (e + 1) : ℕ) : ℚ) := by push_cast; exact hlt
    have h5 : ⌊q⌋ < ((1024 ^ (e + 1) : ℕ) : ℤ) := Int.floor_lt.mpr (by exact_mod_cast h4)
    have hlow : 1024 ^ e ≤ (Rat.floor q).toNat := by rw [hfl]; omega
    have hhigh : (Rat.floor q).toNat < 1024 ^ (e + 1) := by rw [hfl]; omega
    have he' : intLog 1024 (Rat.floor q).toNat = e :=
      intLog_eq (by norm_num) hlow hhigh
    have hnot : ¬ q < 10 := not_lt.mpr h10
    simp only [humanizeBytes]
    rw [if_neg hnot, he']
    split
    · rfl
    · rfl
  · intro n h1024 h10188
    have h10 : 10 ≤ n := by omega
    rw [humanizeBytes_natCast_ge h10]
    have he : intLog 1024 n = 1 := intLog_1024_one h1024 (by omega)
    simp only [he]
    rw [val10_e1]
    set m := (10 * n + 512) / 1024 with hm
    have hm_lb : 10 ≤ m := by rw [hm]; omega
    have hm_ub : m ≤ 99 := by rw [hm]; omega
    have hv : ((((m : ℕ) : ℤ)) : ℚ) / 10 < 10 := by
      rw [div_lt_iff₀ (by norm_num : (0 : ℚ) < 10)]
      push_cast
      exact_mod_cast (by omega : m < 100)
    rw [if_pos hv]
    refine ⟨m / 10, m % 10, by omega, by omega, ?_⟩
    simp only [fmtF1]
    have h10m : (10 : ℚ) * (((((m : ℕ) : ℤ)) : ℚ) / 10) = ((m : ℕ) : ℚ) := by
      push_cast
      ring
    rw [h10m, roundHalfEven_natCast]
    have hten : (10 : ℤ) = ((10 : ℕ) : ℤ) := by norm_cast
    rw [hten, int_tdiv_natCast, int_tmod_natCast, toString_int_natCast,
      toString_int_natCast]
  · intro n h10189 hbig
    have h10 : 10 ≤ n := by omega
    rw [humanizeBytes_natCast_ge h10]
    have he : intLog 1024 n = 1 := intLog_1024_one (by omega) hbig
    simp only [he]
    rw [val10_e1]
    set m := (10 * n + 512) / 1024 with hm
    have hm_lb : 100 ≤ m := by rw [hm]; omega
    have hnot : ¬ ((((m : ℕ) : ℤ)) : ℚ) / 10 < 10 := by
      rw [not_lt, le_div_iff₀ (by norm_num : (0 : ℚ) < 10)]
      push_cast
      exact_mod_cast (by omega : 100 ≤ m)
    rw [if_neg hnot]
    refine ⟨roundHalfEven (((((m : ℕ) : ℤ)) : ℚ) / 10), ?_, rfl⟩
    have h1 : (10 : ℤ) ≤ Rat.floor (((((m : ℕ) : ℤ)) : ℚ) / 10) := by
      rw [ratFloor_eq_intFloor]
      apply Int.le_floor.mpr
      rw [le_div_iff₀ (by norm_num : (0 : ℚ) < 10)]
      push_cast
      exact_mod_cast (by omega : 100 ≤ m)
    exact le_trans h1 (floor_le_roundHalfEven _)

/-- C9 witness: the plain-integer rule applied at 500 bytes, and the
suffix-range rule applied in the megabyte range. -/
theorem C9_witness :
    ((10 ≤ (500 : ℕ) ∧ (500 : ℕ) < 1024) ∧
      humanizeBytes ((500 : ℕ) : ℚ) = (toString (500 : ℕ), " B")) ∧
    ((1024 : ℚ) ^ 2 ≤ (2097152 : ℚ) ∧ (2097152 : ℚ) < (1024 : ℚ) ^ 3 ∧
      (humanizeBytes (2097152 : ℚ)).2 =
        [" B", " KB", " MB", " GB", " TB", " PB", " EB"].getD 2 "") :=
  ⟨⟨⟨by decide, by decide⟩,
    C9_theorem.2.2.2.2.2.1 500 (by decide) (by decide)⟩,
   ⟨by norm_num, by norm_num,
    C9_theorem.2.2.2.2.2.2.1 2 2097152 (by decide) (by norm_num)
      (by norm_num) (by norm_num)⟩⟩

end Progressbar
